import Mathlib

/-!
Shallow embedding of the L0 runtime core (cheng_c): the value model
(l0_types.c), environments (l0_env.c), the numeric primitives
(l0_primitives.c), the evaluator with quasiquote and macro expansion
(l0_eval.c) and the S-expression reader (l0_parser.c), together with
theorems settling the specification claims.

Modelling conventions: C doubles are idealized as exact rationals;
machine-integer wrap-around is not modelled (the claims under study are
about result types and error signalling, not overflow); arena allocation
always succeeds, so the allocation-failure error paths of the C code are
absent.  Pointer-identity tests in the C code become value equality.
Mutable environments are modelled by a store of frames indexed by
numbers; closures capture the index of their environment, matching
capture by reference.  The recursive C functions carry an explicit fuel
argument; exhausting it yields the same null-plus-error-slot outcome as
the depth guards of the C code, and every concrete run below uses ample
fuel.
-/

/-- Status codes of the process-wide error slot, mirroring L0_ParseStatus. -/
inductive PStatus where
  | ok
  | eofErr
  | syntaxErr
  | memErr
  | runtimeErr
deriving DecidableEq

/-- The process-wide error slot: l0_parser_error_status, _message, _line, _col. -/
structure ErrState where
  status : PStatus
  message : Option String
  line : Nat
  col : Nat
deriving DecidableEq

/-- The clean slot as l0_parse_string leaves it after resetting (line and
column keep their previous values; initially both are 1). -/
def cleanErr : ErrState := { status := .ok, message := none, line := 1, col := 1 }

/-- Record a runtime error in the slot, as the C code does by assigning
l0_parser_error_status and l0_parser_error_message (line/col untouched). -/
def setRuntime (e : ErrState) (msg : String) : ErrState :=
  { e with status := .runtimeErr, message := some msg }

/-- L0_Value: the tagged sum of L0 runtime values (l0_types.h).  A closure
holds the index of its captured environment in the environment store. -/
inductive L0Value where
  | nil
  | boolean (b : Bool)
  | integer (n : Int)
  | float (x : Rat)
  | symbol (s : String)
  | str (s : String)
  | pair (car cdr : L0Value)
  | primitive (name : String)
  | closure (params body : L0Value) (envId : Nat)
  | ref (v : L0Value)
deriving DecidableEq

/-- Type-tag number of a value, as used in C error messages (L0_ValueType). -/
def l0_type_id : L0Value → Nat
  | .nil => 0
  | .boolean _ => 1
  | .integer _ => 2
  | .float _ => 3
  | .symbol _ => 4
  | .str _ => 5
  | .pair _ _ => 6
  | .primitive _ => 7
  | .closure _ _ _ => 8
  | .ref _ => 9

def l0_is_nil : L0Value → Bool
  | .nil => true
  | _ => false

def l0_is_boolean : L0Value → Bool
  | .boolean _ => true
  | _ => false

def l0_is_integer : L0Value → Bool
  | .integer _ => true
  | _ => false

def l0_is_float : L0Value → Bool
  | .float _ => true
  | _ => false

def l0_is_symbol : L0Value → Bool
  | .symbol _ => true
  | _ => false

def l0_is_pair : L0Value → Bool
  | .pair _ _ => true
  | _ => false

def l0_is_primitive : L0Value → Bool
  | .primitive _ => true
  | _ => false

def l0_is_closure : L0Value → Bool
  | .closure _ _ _ => true
  | _ => false

/-- l0_is_list: nil, or pairs ending in nil (the cycle check of the C code
cannot trigger on immutable values). -/
def l0_is_list : L0Value → Bool
  | .nil => true
  | .pair _ d => l0_is_list d
  | _ => false

/-- l0_is_truthy: false only for Boolean false (l0_types.c). -/
def l0_is_truthy : L0Value → Bool
  | .boolean false => false
  | _ => true

/-- Build a proper list value from a Lean list. -/
def listToL0 : List L0Value → L0Value
  | [] => .nil
  | v :: rest => .pair v (listToL0 rest)

/-- An environment: a frame (association list, head = most recent) and an
optional outer environment index (l0_env.h).  Frames live in a store so
that closures capture environments by reference and define/set mutate. -/
structure L0Env where
  frame : List (String × L0Value)
  outer : Option Nat
deriving DecidableEq

/-- First match head-to-tail in a single frame. -/
def frameLookup : List (String × L0Value) → String → Option L0Value
  | [], _ => none
  | (s₀, v₀) :: rest, s => if s₀ = s then some v₀ else frameLookup rest s

/-- Update the first binding of s in place (helper for define). -/
def frameUpdate : List (String × L0Value) → String → L0Value → List (String × L0Value)
  | [], _, _ => []
  | (s₀, v₀) :: rest, s, v =>
    if s₀ = s then (s₀, v) :: rest else (s₀, v₀) :: frameUpdate rest s v

/-- l0_env_define on a single frame: update in place if the symbol is
present in this frame, otherwise prepend a new binding (l0_env.c). -/
def frameDefine (fr : List (String × L0Value)) (s : String) (v : L0Value) :
    List (String × L0Value) :=
  if (frameLookup fr s).isSome then frameUpdate fr s v else (s, v) :: fr

/-- l0_env_lookup: scan the current frame, then the outer chain.  The fuel
bounds the chain walk; reachable stores are acyclic with chains shorter
than the store, so the canonical fuel (store size + 1) never runs out. -/
def envLookupAux (envs : List L0Env) : Nat → Nat → String → Option L0Value
  | 0, _, _ => none
  | fuel + 1, i, s =>
    match envs.get? i with
    | none => none
    | some e =>
      match frameLookup e.frame s with
      | some v => some v
      | none =>
        match e.outer with
        | none => none
        | some j => envLookupAux envs fuel j s

def l0_env_lookup (envs : List L0Env) (i : Nat) (s : String) : Option L0Value :=
  envLookupAux envs (envs.length + 1) i s

/-- l0_env_define: define (or overwrite) in the frame of environment i. -/
def l0_env_define (envs : List L0Env) (i : Nat) (s : String) (v : L0Value) :
    List L0Env :=
  match envs.get? i with
  | some e => envs.set i { e with frame := frameDefine e.frame s v }
  | none => envs

/-- l0_env_set: walk the chain and update the nearest binding; none when
the symbol is unbound anywhere (the C function returns false). -/
def envSetAux (envs : List L0Env) : Nat → Nat → String → L0Value → Option (List L0Env)
  | 0, _, _, _ => none
  | fuel + 1, i, s, v =>
    match envs.get? i with
    | none => none
    | some e =>
      if (frameLookup e.frame s).isSome then
        some (envs.set i { e with frame := frameUpdate e.frame s v })
      else
        match e.outer with
        | none => none
        | some j => envSetAux envs fuel j s v

def l0_env_set (envs : List L0Env) (i : Nat) (s : String) (v : L0Value) :
    Option (List L0Env) :=
  envSetAux envs (envs.length + 1) i s v

/-- l0_env_extend: append a fresh empty frame whose outer is i; the new
environment is referred to by the old store length. -/
def l0_env_extend (envs : List L0Env) (i : Nat) : List L0Env × Nat :=
  (envs ++ [{ frame := [], outer := some i }], envs.length)

/-- Mutable world of an evaluation: the environment store plus the
process-wide error slot. -/
structure EvalState where
  envs : List L0Env
  err : ErrState
deriving DecidableEq

/-- get_numeric_as_double (l0_primitives.c): integers and floats convert to
a double (idealized rational); anything else sets a runtime error. -/
def get_numeric_as_double (v : L0Value) (e : ErrState) (primName : String) :
    Option Rat × ErrState :=
  match v with
  | .integer n => (some (n : Rat), e)
  | .float x => (some x, e)
  | _ =>
    (none, setRuntime e ("Primitive " ++ primName ++ ": Expected integer or float argument."))

/-- Loop of prim_add: accumulate, promoting to float once a float is seen. -/
def primAddLoop : L0Value → Bool → Int → Rat → ErrState →
    Option L0Value × ErrState
  | .nil, hasFloat, intSum, floatSum, e =>
    (some (if hasFloat then .float floatSum else .integer intSum), e)
  | .pair a rest, hasFloat, intSum, floatSum, e =>
    match a with
    | .float x =>
      primAddLoop rest true (intSum) ((if hasFloat then floatSum else (intSum : Rat)) + x) e
    | .integer n =>
      if hasFloat then primAddLoop rest true intSum (floatSum + (n : Rat)) e
      else primAddLoop rest false (intSum + n) floatSum e
    | _ =>
      (none, setRuntime e "Primitive +: Arguments must be numbers (integer or float).")
  | _, _, _, _, e =>
    (none, setRuntime e "Primitive +: Argument list is not a proper list.")

/-- prim_add: variadic sum over integers and floats. -/
def prim_add (args : L0Value) (e : ErrState) : Option L0Value × ErrState :=
  primAddLoop args false 0 0 e

/-- Loop of prim_multiply, same promotion discipline as prim_add. -/
def primMulLoop : L0Value → Bool → Int → Rat → ErrState →
    Option L0Value × ErrState
  | .nil, hasFloat, intProd, floatProd, e =>
    (some (if hasFloat then .float floatProd else .integer intProd), e)
  | .pair a rest, hasFloat, intProd, floatProd, e =>
    match a with
    | .float x =>
      primMulLoop rest true intProd ((if hasFloat then floatProd else (intProd : Rat)) * x) e
    | .integer n =>
      if hasFloat then primMulLoop rest true intProd (floatProd * (n : Rat)) e
      else primMulLoop rest false (intProd * n) floatProd e
    | _ =>
      (none, setRuntime e "Primitive *: Arguments must be numbers (integer or float).")
  | _, _, _, _, e =>
    (none, setRuntime e "Primitive *: Argument list is not a proper list.")

/-- prim_multiply: variadic product over integers and floats. -/
def prim_multiply (args : L0Value) (e : ErrState) : Option L0Value × ErrState :=
  primMulLoop args false 1 1 e

/-- Loop of prim_subtract on the remaining arguments. -/
def primSubLoop : L0Value → Bool → Int → Rat → ErrState →
    Option L0Value × ErrState
  | .nil, hasFloat, intRes, floatRes, e =>
    (some (if hasFloat then .float floatRes else .integer intRes), e)
  | .pair a rest, hasFloat, intRes, floatRes, e =>
    match get_numeric_as_double a e "-" with
    | (none, e₂) => (none, e₂)
    | (some x, e₂) =>
      let promote := l0_is_float a && !hasFloat
      let hasFloat₂ := hasFloat || l0_is_float a
      let floatRes₂ := (if promote then (intRes : Rat) else floatRes)
      if hasFloat₂ then primSubLoop rest true intRes (floatRes₂ - x) e₂
      else primSubLoop rest false (intRes - x.floor) floatRes₂ e₂
  | _, _, _, _, e =>
    (none, setRuntime e "Primitive -: Argument list is not a proper list.")

/-- prim_subtract: needs at least one argument; one argument negates. -/
def prim_subtract (args : L0Value) (e : ErrState) : Option L0Value × ErrState :=
  match args with
  | .nil => (none, setRuntime e "Primitive -: Requires at least one argument.")
  | .pair first rest =>
    match get_numeric_as_double first e "-" with
    | (none, e₂) => (none, e₂)
    | (some x, e₂) =>
      match rest with
      | .nil =>
        (some (if l0_is_float first then .float (-x) else .integer (-x.floor)), e₂)
      | _ => primSubLoop rest (l0_is_float first) x.floor x e₂
  | _ => (none, setRuntime e "Primitive -: Argument list is not a proper list.")

/-- Loop of prim_divide over the divisors. -/
def primDivLoop : L0Value → Rat → ErrState → Option L0Value × ErrState
  | .nil, acc, e => (some (.float acc), e)
  | .pair a rest, acc, e =>
    match get_numeric_as_double a e "/" with
    | (none, e₂) => (none, e₂)
    | (some x, e₂) =>
      if x = 0 then (none, setRuntime e₂ "Primitive /: Division by zero.")
      else primDivLoop rest (acc / x) e₂
  | _, _, e =>
    (none, setRuntime e "Primitive /: Argument list is not a proper list.")

/-- prim_divide: needs at least one argument; one argument takes the
reciprocal; the result is always a float; zero divisors are errors. -/
def prim_divide (args : L0Value) (e : ErrState) : Option L0Value × ErrState :=
  match args with
  | .nil => (none, setRuntime e "Primitive /: Requires at least one argument.")
  | .pair first rest =>
    match get_numeric_as_double first e "/" with
    | (none, e₂) => (none, e₂)
    | (some x, e₂) =>
      match rest with
      | .nil =>
        if x = 0 then (none, setRuntime e₂ "Primitive /: Division by zero (1/0).")
        else (some (.float (1 / x)), e₂)
      | _ => primDivLoop rest x e₂
  | _ => (none, setRuntime e "Primitive /: Argument list is not a proper list.")

/-- Loop of prim_equal: each further argument is compared with the first;
if either side is non-numeric the slot is reset and the answer is #f. -/
def primEqualLoop : L0Value → Option Rat → ErrState → Option L0Value × ErrState
  | .nil, _, e => (some (.boolean true), e)
  | .pair a rest, firstNum, e =>
    match get_numeric_as_double a e "=" with
    | (nextNum, e₂) =>
      match firstNum, nextNum with
      | some x, some y =>
        if x ≠ y then (some (.boolean false), e₂)
        else primEqualLoop rest firstNum e₂
      | _, _ =>
        (some (.boolean false), { e₂ with status := .ok, message := none })
  | _, _, e =>
    (none, setRuntime e "Primitive =: Argument list is not a proper list.")

/-- prim_equal: with fewer than two arguments the answer is #t. -/
def prim_equal (args : L0Value) (e : ErrState) : Option L0Value × ErrState :=
  match args with
  | .nil => (some (.boolean true), e)
  | .pair _ .nil => (some (.boolean true), e)
  | .pair first rest =>
    match get_numeric_as_double first e "=" with
    | (firstNum, e₂) => primEqualLoop rest firstNum e₂
  | _ => (some (.boolean true), e)

/-- Loop of prim_less_than: the chain must be strictly increasing. -/
def primLessLoop : L0Value → Rat → ErrState → Option L0Value × ErrState
  | .nil, _, e => (some (.boolean true), e)
  | .pair a rest, prev, e =>
    match get_numeric_as_double a e "<" with
    | (none, e₂) => (none, e₂)
    | (some x, e₂) =>
      if ¬ (prev < x) then (some (.boolean false), e₂)
      else primLessLoop rest x e₂
  | _, _, e =>
    (none, setRuntime e "Primitive <: Argument list is not a proper list.")

/-- prim_less_than: with fewer than two arguments the answer is #t. -/
def prim_less_than (args : L0Value) (e : ErrState) : Option L0Value × ErrState :=
  match args with
  | .nil => (some (.boolean true), e)
  | .pair _ .nil => (some (.boolean true), e)
  | .pair first rest =>
    match get_numeric_as_double first e "<" with
    | (none, e₂) => (none, e₂)
    | (some x, e₂) => primLessLoop rest x e₂
  | _ => (some (.boolean true), e)

/-- Loop of prim_greater_than: the chain must be strictly decreasing. -/
def primGreaterLoop : L0Value → Rat → ErrState → Option L0Value × ErrState
  | .nil, _, e => (some (.boolean true), e)
  | .pair a rest, prev, e =>
    match get_numeric_as_double a e ">" with
    | (none, e₂) => (none, e₂)
    | (some x, e₂) =>
      if ¬ (prev > x) then (some (.boolean false), e₂)
      else primGreaterLoop rest x e₂
  | _, _, e =>
    (none, setRuntime e "Primitive >: Argument list is not a proper list.")

/-- prim_greater_than: with fewer than two arguments the answer is #t. -/
def prim_greater_than (args : L0Value) (e : ErrState) : Option L0Value × ErrState :=
  match args with
  | .nil => (some (.boolean true), e)
  | .pair _ .nil => (some (.boolean true), e)
  | .pair first rest =>
    match get_numeric_as_double first e ">" with
    | (none, e₂) => (none, e₂)
    | (some x, e₂) => primGreaterLoop rest x e₂
  | _ => (some (.boolean true), e)

/-- Special-form tags (the L0_SpecialFormType enum of l0_eval.c). -/
inductive SpecialForm where
  | sfNone
  | sfQuote
  | sfQuasiquote
  | sfIf
  | sfLambda
  | sfDefine
  | sfSet
  | sfLet
  | sfDefmacroForm
  | sfAnd
  | sfOr
  | sfBegin
  | sfCond
  | sfUnquote
deriving DecidableEq

/-- get_special_form_type: exact string comparison against the closed set;
unquote-splicing maps to the same tag as unquote. -/
def get_special_form_type (s : String) : SpecialForm :=
  if s = "if" then .sfIf
  else if s = "lambda" then .sfLambda
  else if s = "define" then .sfDefine
  else if s = "quasiquote" then .sfQuasiquote
  else if s = "quote" then .sfQuote
  else if s = "set!" then .sfSet
  else if s = "let" then .sfLet
  else if s = "begin" then .sfBegin
  else if s = "cond" then .sfCond
  else if s = "and" then .sfAnd
  else if s = "or" then .sfOr
  else if s = "defmacro" then .sfDefmacroForm
  else if s = "unquote" then .sfUnquote
  else if s = "unquote-splicing" then .sfUnquote
  else .sfNone

/-- Truth test computed inline by the evaluator (the is_true expression of
the SF_IF case): everything is true except Boolean false. -/
def evalIsTrue (v : L0Value) : Bool :=
  match v with
  | .boolean b => b
  | _ => true

/-- Parameter-list validation loop shared by lambda, define shorthand and
defmacro: every car while walking pairs must be a symbol. -/
def allCarsSymbols : L0Value → Bool
  | .pair (.symbol _) rest => allCarsSymbols rest
  | .pair _ _ => false
  | _ => true

/-- The parameter-binding loop at the head of the closure case of l0_apply:
bind while both lists are pairs, returning the updated store and the two
leftover tails (both must end up nil for the arity to match).  Non-symbol
parameters stop the loop; the evaluator never constructs such closures. -/
def bindLoop : L0Value → L0Value → Nat → List L0Env → List L0Env × L0Value × L0Value
  | .pair (.symbol p) prest, .pair a arest, callEnv, envs =>
    bindLoop prest arest callEnv (l0_env_define envs callEnv p a)
  | ps, as_, _, envs => (envs, ps, as_)

/-- Dispatch of a primitive value by its registered name.  Only the
primitives the claims exercise are modelled; the rest answer with a
runtime error and no claim depends on them. -/
def applyPrim (name : String) (args : L0Value) (e : ErrState) :
    Option L0Value × ErrState :=
  if name = "+" then prim_add args e
  else if name = "-" then prim_subtract args e
  else if name = "*" then prim_multiply args e
  else if name = "/" then prim_divide args e
  else if name = "=" then prim_equal args e
  else if name = "<" then prim_less_than args e
  else if name = ">" then prim_greater_than args e
  else (none, setRuntime e ("Primitive not modelled: " ++ name))

/-- Macro search loop inlined in the SF_NONE case of l0_eval: walk the
table while it is a pair, skipping malformed entries silently. -/
def evalMacroSearch : L0Value → String → Option L0Value
  | .pair (.pair (.symbol mname) transformer) rest, name =>
    if mname = name then some transformer else evalMacroSearch rest name
  | .pair _ rest, name => evalMacroSearch rest name
  | _, _ => none

/-- Table walk of find_macro_transformer (l0_eval.c): unlike the inline
search of SF_NONE it raises errors on malformed entries, non-closure
transformers and improper tables. -/
def findMacroLoop : L0Value → String → ErrState → Option L0Value × ErrState
  | .nil, _, e => (none, e)
  | .pair entry rest, name, e =>
    match entry with
    | .pair (.symbol mname) transformer =>
      if mname = name then
        if l0_is_closure transformer then (some transformer, e)
        else
          (none, setRuntime e
            ("Internal error: Macro transformer for " ++ name ++ " is not a closure."))
      else findMacroLoop rest name e
    | .pair _ _ => findMacroLoop rest name e
    | _ => (none, setRuntime e "Runtime error: Malformed entry in *macro-table*.")
  | _, _, e => (none, setRuntime e "Runtime error: *macro-table* is not a proper list.")

/-- find_macro_transformer: nothing to find when *macro-table* is unbound
(that is not an error); a bound non-list table is an error. -/
def find_macro_transformer (symv : L0Value) (envs : List L0Env) (i : Nat)
    (e : ErrState) : Option L0Value × ErrState :=
  match symv with
  | .symbol name =>
    match l0_env_lookup envs i "*macro-table*" with
    | none => (none, e)
    | some table =>
      if l0_is_list table then findMacroLoop table name e
      else (none, setRuntime e "Runtime error: *macro-table* is not a list.")
  | _ => (none, e)

/-- Requests of the combined evaluator: one constructor per recursive C
function (and per internal loop) of l0_eval.c.  Packing them into one
structurally recursive function on fuel keeps every computation
kernel-reducible. -/
inductive EvalReq where
  | rEval (expr : L0Value) (env : Nat)
  | rApply (func args : L0Value) (env : Nat)
  | rEvalList (lst : L0Value) (env : Nat)
  | rEvalSeq (seq : L0Value) (env : Nat)
  | rIf (c t f : L0Value) (env : Nat)
  | rAnd (args : L0Value) (env : Nat)
  | rOr (args : L0Value) (env : Nat)
  | rCond (clauses : L0Value) (env : Nat)
  | rLetBind (bindings : L0Value) (env letEnv : Nat)
  | rQuasi (template : L0Value) (env : Nat) (depth : Nat)
  | rMacroExpand (expr : L0Value) (env : Nat)

/-- The evaluator of l0_eval.c as one fuel-indexed function.  Each C
function/loop is a request case; every recursive call spends one unit of
fuel, and running out of fuel reports the same null-plus-runtime-error
outcome as the MAX_EVAL_DEPTH guards. -/
def l0_run (fuel : Nat) (req : EvalReq) (st : EvalState) :
    Option L0Value × EvalState :=
  match fuel with
  | 0 => (none, { st with err := setRuntime st.err "Stack overflow suspected in l0_eval." })
  | fuel + 1 =>
    match req with
    | .rEval expr env =>
      match expr with
      | .nil => (some expr, st)
      | .boolean _ => (some expr, st)
      | .integer _ => (some expr, st)
      | .float _ => (some expr, st)
      | .str _ => (some expr, st)
      | .symbol s =>
        match l0_env_lookup st.envs env s with
        | none => (none, { st with err := setRuntime st.err ("Unbound variable: " ++ s) })
        | some v => (some v, st)
      | .pair opExpr argsExpr =>
        match opExpr with
        | .symbol opSym =>
          match get_special_form_type opSym with
          | .sfQuote =>
            match argsExpr with
            | .pair x .nil => (some x, st)
            | _ => (none, { st with err := setRuntime st.err "Special form quote requires exactly one argument." })
          | .sfQuasiquote =>
            match argsExpr with
            | .pair x .nil => l0_run fuel (.rQuasi x env 1) st
            | _ => (none, { st with err := setRuntime st.err "Special form quasiquote requires exactly one argument." })
          | .sfIf =>
            match argsExpr with
            | .pair c (.pair t .nil) => l0_run fuel (.rIf c t L0Value.nil env) st
            | .pair c (.pair t (.pair f .nil)) => l0_run fuel (.rIf c t f env) st
            | _ => (none, { st with err := setRuntime st.err "Special form if requires 2 or 3 arguments: (if condition true-expr false-expr)." })
          | .sfLambda =>
            match argsExpr with
            | .pair params (.pair b brest) =>
              if !allCarsSymbols params then
                (none, { st with err := setRuntime st.err "Lambda parameters must be symbols." })
              else if !l0_is_list params then
                (none, { st with err := setRuntime st.err "Lambda parameters list is not a proper list." })
              else (some (.closure params (.pair b brest) env), st)
            | _ => (none, { st with err := setRuntime st.err "Special form lambda requires parameters list and at least one body expression." })
          | .sfDefine =>
            match argsExpr with
            | .pair (L0Value.symbol s) (.pair valueExpr .nil) =>
              match l0_run fuel (.rEval valueExpr env) st with
              | (none, st₂) => (none, st₂)
              | (some v, st₂) =>
                if st₂.err.status ≠ .ok then (none, st₂)
                else (some .nil, { st₂ with envs := l0_env_define st₂.envs env s v })
            | .pair (L0Value.pair fname params) (.pair bodyExpr .nil) =>
              match fname with
              | .symbol fs =>
                if !allCarsSymbols params then
                  (none, { st with err := setRuntime st.err "Function definition parameters must be symbols." })
                else if !l0_is_list params then
                  (none, { st with err := setRuntime st.err "Function definition parameters list is not a proper list." })
                else
                  (some .nil, { st with envs := l0_env_define st.envs env fs (.closure params (.pair bodyExpr .nil) env) })
              | _ => (none, { st with err := setRuntime st.err "Function name in definition shorthand must be a symbol." })
            | .pair _ (.pair _ .nil) =>
              (none, { st with err := setRuntime st.err "First argument to define must be a symbol or a list for function definition." })
            | _ => (none, { st with err := setRuntime st.err "Special form define requires exactly two arguments: (define symbol value-expr)." })
          | .sfSet =>
            match argsExpr with
            | .pair target (.pair valueExpr .nil) =>
              match target with
              | .symbol s =>
                match l0_run fuel (.rEval valueExpr env) st with
                | (none, st₂) => (none, st₂)
                | (some v, st₂) =>
                  if st₂.err.status ≠ .ok then (none, st₂)
                  else
                    match l0_env_set st₂.envs env s v with
                    | some envs₂ => (some .nil, { st₂ with envs := envs₂ })
                    | none => (none, st₂)
              | _ => (none, { st with err := setRuntime st.err "First argument to set! must be a symbol." })
            | _ => (none, { st with err := setRuntime st.err "Special form set! requires exactly two arguments: (set! symbol value-expr)." })
          | .sfLet =>
            match argsExpr with
            | .pair bindings (.pair b brest) =>
              let ext := l0_env_extend st.envs env
              match l0_run fuel (.rLetBind bindings env ext.2) { st with envs := ext.1 } with
              | (none, st₂) => (none, st₂)
              | (some _, st₂) => l0_run fuel (.rEvalSeq (.pair b brest) ext.2) st₂
            | _ => (none, { st with err := setRuntime st.err "Special form let requires bindings list and at least one body expression." })
          | .sfDefmacroForm =>
            match argsExpr with
            | .pair nameSym (.pair params (.pair b brest)) =>
              match nameSym with
              | .symbol mname =>
                if !allCarsSymbols params then
                  (none, { st with err := setRuntime st.err "Defmacro parameters must be symbols." })
                else if !l0_is_list params then
                  (none, { st with err := setRuntime st.err "Defmacro parameters list is not a proper list." })
                else
                  match l0_env_lookup st.envs env "*macro-table*" with
                  | none => (none, { st with err := setRuntime st.err "Global variable *macro-table* is not defined." })
                  | some table =>
                    match l0_env_set st.envs env "*macro-table*"
                        (.pair (.pair (.symbol mname) (.closure params (.pair b brest) env)) table) with
                    | some envs₂ => (some .nil, { st with envs := envs₂ })
                    | none => (none, { st with err := setRuntime st.err "Failed to update *macro-table* binding." })
              | _ => (none, { st with err := setRuntime st.err "First argument to defmacro (name) must be a symbol." })
            | _ => (none, { st with err := setRuntime st.err "Special form defmacro requires name, parameters list, and at least one body expression." })
          | .sfAnd =>
            match argsExpr with
            | .nil => (some (.boolean true), st)
            | _ =>
              if !l0_is_list argsExpr then
                (none, { st with err := setRuntime st.err "Arguments of and must form a proper list." })
              else l0_run fuel (.rAnd argsExpr env) st
          | .sfOr =>
            match argsExpr with
            | .nil => (some (.boolean false), st)
            | _ =>
              if !l0_is_list argsExpr then
                (none, { st with err := setRuntime st.err "Arguments of or must form a proper list." })
              else l0_run fuel (.rOr argsExpr env) st
          | .sfBegin => l0_run fuel (.rEvalSeq argsExpr env) st
          | .sfCond => l0_run fuel (.rCond argsExpr env) st
          | .sfUnquote =>
            (none, { st with err := setRuntime st.err ("Runtime Error: " ++ opSym ++ " cannot appear outside of a quasiquote.") })
          | .sfNone =>
            match l0_env_lookup st.envs env "*macro-table*" with
            | none => (none, { st with err := setRuntime st.err "Macro check failed: Global variable *macro-table* not found." })
            | some table =>
              if !l0_is_list table then
                (none, { st with err := setRuntime st.err "Macro check failed: Global variable *macro-table* is not a list." })
              else
                match evalMacroSearch table opSym with
                | some transformer =>
                  if !l0_is_closure transformer then
                    (none, { st with err := setRuntime st.err ("Macro expansion error: Transformer for " ++ opSym ++ " is not a closure.") })
                  else
                    match l0_run fuel (.rApply transformer argsExpr env) st with
                    | (none, st₂) => (none, st₂)
                    | (some expanded, st₂) =>
                      if st₂.err.status ≠ .ok then (none, st₂)
                      else l0_run fuel (.rEval expanded env) st₂
                | none =>
                  match l0_env_lookup st.envs env opSym with
                  | none => (none, { st with err := setRuntime st.err ("Unbound function/variable in operator position: " ++ opSym) })
                  | some opValue =>
                    if !(l0_is_primitive opValue || l0_is_closure opValue) then
                      (none, { st with err := setRuntime st.err ("Attempted to apply non-function value (type " ++ toString (l0_type_id opValue) ++ ") obtained from symbol " ++ opSym ++ ".") })
                    else
                      match l0_run fuel (.rEvalList argsExpr env) st with
                      | (none, st₂) => (none, st₂)
                      | (some evArgs, st₂) =>
                        if st₂.err.status ≠ .ok then (none, st₂)
                        else l0_run fuel (.rApply opValue evArgs env) st₂
        | _ =>
          match l0_run fuel (.rEval opExpr env) st with
          | (none, st₂) => (none, st₂)
          | (some fv, st₂) =>
            if st₂.err.status ≠ .ok then (none, st₂)
            else if !(l0_is_primitive fv || l0_is_closure fv) then
              (none, { st₂ with err := setRuntime st₂.err ("Attempted to apply non-function value (type " ++ toString (l0_type_id fv) ++ ") obtained from evaluating operator expression.") })
            else
              match l0_run fuel (.rEvalList argsExpr env) st₂ with
              | (none, st₃) => (none, st₃)
              | (some evArgs, st₃) =>
                if st₃.err.status ≠ .ok then (none, st₃)
                else l0_run fuel (.rApply fv evArgs env) st₃
      | .primitive _ =>
        (none, { st with err := setRuntime st.err ("Cannot evaluate value of type " ++ toString (l0_type_id expr) ++ ".") })
      | .closure _ _ _ =>
        (none, { st with err := setRuntime st.err ("Cannot evaluate value of type " ++ toString (l0_type_id expr) ++ ".") })
      | .ref _ =>
        (none, { st with err := setRuntime st.err ("Cannot evaluate value of type " ++ toString (l0_type_id expr) ++ ".") })
    | .rApply func args _env =>
      match func with
      | .primitive name =>
        match applyPrim name args st.err with
        | (r, e₂) => (r, { st with err := e₂ })
      | .closure params body cenv =>
        let ext := l0_env_extend st.envs cenv
        match bindLoop params args ext.2 ext.1 with
        | (envs₂, pLeft, aLeft) =>
          if !(l0_is_nil pLeft && l0_is_nil aLeft) then
            (none, { st with envs := envs₂, err := setRuntime st.err "Function called with incorrect number of arguments." })
          else l0_run fuel (.rEvalSeq body ext.2) { st with envs := envs₂ }
      | _ =>
        (none, { st with err := setRuntime st.err ("Attempted to apply non-function value (type " ++ toString (l0_type_id func) ++ ").") })
    | .rEvalList lst env =>
      match lst with
      | .nil => (some .nil, st)
      | .pair car cdr =>
        match l0_run fuel (.rEval car env) st with
        | (none, st₂) => (none, st₂)
        | (some v, st₂) =>
          if st₂.err.status ≠ .ok then (none, st₂)
          else
            match l0_run fuel (.rEvalList cdr env) st₂ with
            | (none, st₃) => (none, st₃)
            | (some rest, st₃) =>
              if st₃.err.status ≠ .ok then (none, st₃)
              else (some (.pair v rest), st₃)
      | _ => (none, { st with err := setRuntime st.err "Cannot evaluate list: input is not a pair or nil." })
    | .rEvalSeq seq env =>
      match seq with
      | .nil => (some .nil, st)
      | .pair e₁ rest =>
        match l0_run fuel (.rEval e₁ env) st with
        | (none, st₂) => (none, st₂)
        | (some v, st₂) =>
          if st₂.err.status ≠ .ok then (none, st₂)
          else
            match rest with
            | .nil => (some v, st₂)
            | .pair _ _ => l0_run fuel (.rEvalSeq rest env) st₂
            | _ => (none, { st₂ with err := setRuntime st₂.err "Body sequence is not a proper list." })
      | _ => (none, { st with err := setRuntime st.err "Body sequence is not a proper list." })
    | .rIf c t f env =>
      match l0_run fuel (.rEval c env) st with
      | (none, st₂) => (none, st₂)
      | (some cv, st₂) =>
        if st₂.err.status ≠ .ok then (none, st₂)
        else if evalIsTrue cv then l0_run fuel (.rEval t env) st₂
        else l0_run fuel (.rEval f env) st₂
    | .rAnd args env =>
      match args with
      | .pair a rest =>
        match rest with
        | .nil => l0_run fuel (.rEval a env) st
        | _ =>
          match l0_run fuel (.rEval a env) st with
          | (none, st₂) => (none, st₂)
          | (some v, st₂) =>
            if st₂.err.status ≠ .ok then (none, st₂)
            else
              match v with
              | .boolean false => (some v, st₂)
              | _ => l0_run fuel (.rAnd rest env) st₂
      | _ => (some (.boolean true), st)
    | .rOr args env =>
      match args with
      | .pair a rest =>
        match rest with
        | .nil => l0_run fuel (.rEval a env) st
        | _ =>
          match l0_run fuel (.rEval a env) st with
          | (none, st₂) => (none, st₂)
          | (some v, st₂) =>
            if st₂.err.status ≠ .ok then (none, st₂)
            else if evalIsTrue v then (some v, st₂)
            else l0_run fuel (.rOr rest env) st₂
      | _ => (some (.boolean false), st)
    | .rCond clauses env =>
      match clauses with
      | .nil => (some .nil, st)
      | .pair clause rest =>
        match clause with
        | .pair testExpr bodyExprs =>
          if testExpr = .symbol "else" then
            if rest ≠ .nil then
              (none, { st with err := setRuntime st.err "The else clause must be the last clause in cond." })
            else
              match bodyExprs with
              | .nil => (some (.boolean true), st)
              | _ => l0_run fuel (.rEvalSeq bodyExprs env) st
          else
            match l0_run fuel (.rEval testExpr env) st with
            | (none, st₂) => (none, st₂)
            | (some tv, st₂) =>
              if st₂.err.status ≠ .ok then (none, st₂)
              else if evalIsTrue tv then
                match bodyExprs with
                | .nil => (some tv, st₂)
                | _ => l0_run fuel (.rEvalSeq bodyExprs env) st₂
              else l0_run fuel (.rCond rest env) st₂
        | _ => (none, { st with err := setRuntime st.err "A cond clause must be a list." })
      | _ => (none, { st with err := setRuntime st.err "The cond clauses must form a proper list." })
    | .rLetBind bindings env letEnv =>
      match bindings with
      | .nil => (some .nil, st)
      | .pair bindingPair rest =>
        match bindingPair with
        | .pair var (.pair valExpr .nil) =>
          match var with
          | .symbol s =>
            match l0_run fuel (.rEval valExpr env) st with
            | (none, st₂) => (none, st₂)
            | (some v, st₂) =>
              if st₂.err.status ≠ .ok then (none, st₂)
              else l0_run fuel (.rLetBind rest env letEnv) { st₂ with envs := l0_env_define st₂.envs letEnv s v }
          | _ => (none, { st with err := setRuntime st.err "Let binding variable must be a symbol." })
        | _ => (none, { st with err := setRuntime st.err "Let binding must be a list of two elements: (symbol value-expr)." })
      | _ => (none, { st with err := setRuntime st.err "Let bindings list is not a proper list." })
    | .rQuasi template env depth =>
      match template with
      | .pair op rest =>
        match op, depth with
        | .symbol "unquote", 1 =>
          match rest with
          | .pair x .nil => l0_run fuel (.rEval x env) st
          | _ => (none, { st with err := setRuntime st.err "Special form unquote requires exactly one argument." })
        | .symbol "unquote-splicing", 1 =>
          (none, { st with err := setRuntime st.err "TODO: unquote-splicing is not yet implemented." })
        | _, _ =>
          let depth₂ :=
            match op with
            | .symbol "unquote" => depth - 1
            | .symbol "unquote-splicing" => depth - 1
            | .symbol "quasiquote" => depth + 1
            | _ => depth
          match l0_run fuel (.rQuasi op env depth₂) st with
          | (none, st₂) => (none, st₂)
          | (some ecar, st₂) =>
            if st₂.err.status ≠ .ok then (none, st₂)
            else
              match l0_run fuel (.rQuasi rest env depth₂) st₂ with
              | (none, st₃) => (none, st₃)
              | (some ecdr, st₃) =>
                if st₃.err.status ≠ .ok then (none, st₃)
                else (some (.pair ecar ecdr), st₃)
      | _ => (some template, st)
    | .rMacroExpand expr env =>
      match expr with
      | .pair op args =>
        if op = .symbol "quote" then (some expr, st)
        else
          match find_macro_transformer op st.envs env st.err with
          | (some transformer, e₂) =>
            match l0_run fuel (.rApply transformer args env) { st with err := e₂ } with
            | (none, st₂) => (none, st₂)
            | (some expanded, st₂) =>
              if st₂.err.status ≠ .ok then (none, st₂)
              else l0_run fuel (.rMacroExpand expanded env) st₂
          | (none, e₂) =>
            if e₂.status ≠ .ok then (none, { st with err := e₂ })
            else
              match l0_run fuel (.rMacroExpand op env) { st with err := e₂ } with
              | (none, st₂) => (none, st₂)
              | (some ecar, st₂) =>
                if st₂.err.status ≠ .ok then (none, st₂)
                else
                  match l0_run fuel (.rMacroExpand args env) st₂ with
                  | (none, st₃) => (none, st₃)
                  | (some ecdr, st₃) =>
                    if st₃.err.status ≠ .ok then (none, st₃)
                    else (some (.pair ecar ecdr), st₃)
      | _ => (some expr, st)

/-- l0_eval: evaluate an expression in environment env. -/
def l0_eval (fuel : Nat) (expr : L0Value) (env : Nat) (st : EvalState) :
    Option L0Value × EvalState :=
  l0_run fuel (.rEval expr env) st

/-- l0_apply: apply a primitive or closure to an argument list. -/
def l0_apply (fuel : Nat) (func args : L0Value) (env : Nat) (st : EvalState) :
    Option L0Value × EvalState :=
  l0_run fuel (.rApply func args env) st

/-- l0_eval_list: evaluate each argument left to right into a fresh list. -/
def l0_eval_list (fuel : Nat) (lst : L0Value) (env : Nat) (st : EvalState) :
    Option L0Value × EvalState :=
  l0_run fuel (.rEvalList lst env) st

/-- l0_eval_sequence: evaluate a body as a begin block, returning the last
value (nil for the empty body). -/
def l0_eval_sequence (fuel : Nat) (seq : L0Value) (env : Nat) (st : EvalState) :
    Option L0Value × EvalState :=
  l0_run fuel (.rEvalSeq seq env) st

/-- l0_expand_quasiquote: quasiquote template expansion at a nesting depth. -/
def l0_expand_quasiquote (fuel : Nat) (template : L0Value) (env : Nat)
    (st : EvalState) (depth : Nat) : Option L0Value × EvalState :=
  l0_run fuel (.rQuasi template env depth) st

/-- l0_macroexpand: the separate macro-expansion pass. -/
def l0_macroexpand (fuel : Nat) (expr : L0Value) (env : Nat) (st : EvalState) :
    Option L0Value × EvalState :=
  l0_run fuel (.rMacroExpand expr env) st

/-- Parser position state: remaining input plus 1-based line and column. -/
structure PState where
  input : List Char
  line : Nat
  col : Nat
deriving DecidableEq

/-- The characters the C isspace accepts in the default locale. -/
def cIsSpace (c : Char) : Bool :=
  c = ' ' || c = '\t' || c = '\n' || c.toNat = 11 || c.toNat = 12 || c.toNat = 13

/-- skip_whitespace_and_comments as a single scan; the flag records being
inside a comment (semicolon to end of line). -/
def skipWsAux : List Char → Bool → Nat → Nat → List Char × Nat × Nat
  | [], _, line, col => ([], line, col)
  | c :: rest, inComment, line, col =>
    if inComment then
      if c = '\n' then skipWsAux rest false (line + 1) 1
      else skipWsAux rest true line (col + 1)
    else if c = ';' then skipWsAux rest true line (col + 1)
    else if cIsSpace c then
      if c = '\n' then skipWsAux rest false (line + 1) 1
      else skipWsAux rest false line (col + 1)
    else (c :: rest, line, col)

def skipWs (st : PState) : PState :=
  match skipWsAux st.input false st.line st.col with
  | (input, line, col) => { input := input, line := line, col := col }

/-- Characters that may continue a symbol: alphanumeric or punctuation
from the set underscore plus minus star slash equals bang question less
greater colon dot. -/
def isSymbolPunct (c : Char) : Bool :=
  c = '_' || c = '+' || c = '-' || c = '*' || c = '/' || c = '=' || c = '!' ||
  c = '?' || c = '<' || c = '>' || c = ':' || c = '.'

def is_symbol_char (c : Char) : Bool := c.isAlphanum || isSymbolPunct c

def is_symbol_start_char (c : Char) : Bool := c.isAlpha || isSymbolPunct c

/-- Token terminator test of parse_atom: end of input, whitespace, closing
parenthesis or semicolon. -/
def isSeparator : List Char → Bool
  | [] => true
  | c :: _ => cIsSpace c || c = ')' || c = ';'

/-- Longest digit prefix. -/
def takeDigits : List Char → List Char × List Char
  | [] => ([], [])
  | c :: rest =>
    if c.isDigit then
      match takeDigits rest with
      | (ds, r) => (c :: ds, r)
    else ([], c :: rest)

def digitsVal (ds : List Char) : Nat :=
  ds.foldl (fun acc c => acc * 10 + (c.toNat - 48)) 0

/-- strtol in base 10 restricted to what parse_atom feeds it: an optional
sign followed by digits; returns the value, characters consumed and the
rest (none when no digit was converted). -/
def strtolParse (l : List Char) : Option (Int × Nat × List Char) :=
  match l with
  | '+' :: rest =>
    match takeDigits rest with
    | ([], _) => none
    | (ds, r) => some (((digitsVal ds : Int)), ds.length + 1, r)
  | '-' :: rest =>
    match takeDigits rest with
    | ([], _) => none
    | (ds, r) => some ((-(digitsVal ds : Int)), ds.length + 1, r)
  | _ =>
    match takeDigits l with
    | ([], _) => none
    | (ds, r) => some (((digitsVal ds : Int)), ds.length, r)

/-- Decimal mantissa of strtod: digits with an optional dot; the flag
records whether a dot was present. -/
def strtodMantissa (l : List Char) : Option (Rat × Nat × List Char × Bool) :=
  match takeDigits l with
  | (d₁, r₁) =>
    match r₁ with
    | '.' :: r₂ =>
      match takeDigits r₂ with
      | (d₂, r₃) =>
        if d₁.length + d₂.length = 0 then none
        else
          some ((digitsVal (d₁ ++ d₂) : Rat) / (10 : Rat) ^ d₂.length,
                d₁.length + 1 + d₂.length, r₃, true)
    | _ =>
      if d₁.length = 0 then none
      else some ((digitsVal d₁ : Rat), d₁.length, r₁, false)

/-- Optional exponent part of strtod: e or E, optional sign, digits; it is
consumed only when at least one digit follows. -/
def strtodExponent (l : List Char) : Option (Int × Nat × List Char) :=
  match l with
  | c :: rest =>
    if c = 'e' || c = 'E' then
      match rest with
      | '+' :: r₂ =>
        match takeDigits r₂ with
        | ([], _) => none
        | (ds, r) => some ((digitsVal ds : Int), ds.length + 2, r)
      | '-' :: r₂ =>
        match takeDigits r₂ with
        | ([], _) => none
        | (ds, r) => some (-(digitsVal ds : Int), ds.length + 2, r)
      | _ =>
        match takeDigits rest with
        | ([], _) => none
        | (ds, r) => some ((digitsVal ds : Int), ds.length + 1, r)
    else none
  | [] => none

/-- strtod restricted to decimal notation (the hexadecimal, infinity and
nan forms never reach a separator-checked float in parse_atom, so the
observable outcomes agree with the C behaviour).  Returns the value,
characters consumed, the rest, and whether float syntax (dot or
exponent) was seen, which parse_atom requires. -/
def strtodParse (l : List Char) : Option (Rat × Nat × List Char × Bool) :=
  match l with
  | '+' :: rest =>
    match strtodMantissa rest with
    | none => none
    | some (m, n, r, dot) =>
      match strtodExponent r with
      | some (ex, en, r₂) => some (m * (10 : Rat) ^ ex, n + 1 + en, r₂, true)
      | none => some (m, n + 1, r, dot)
  | '-' :: rest =>
    match strtodMantissa rest with
    | none => none
    | some (m, n, r, dot) =>
      match strtodExponent r with
      | some (ex, en, r₂) => some (-(m * (10 : Rat) ^ ex), n + 1 + en, r₂, true)
      | none => some (-m, n + 1, r, dot)
  | _ =>
    match strtodMantissa l with
    | none => none
    | some (m, n, r, dot) =>
      match strtodExponent r with
      | some (ex, en, r₂) => some (m * (10 : Rat) ^ ex, n + en, r₂, true)
      | none => some (m, n, r, dot)

/-- Longest prefix of symbol-continuation characters. -/
def takeSymbolChars : List Char → List Char × List Char
  | [] => ([], [])
  | c :: rest =>
    if is_symbol_char c then
      match takeSymbolChars rest with
      | (cs, r) => (c :: cs, r)
    else ([], c :: rest)

/-- Token shown in the invalid-atom error: up to whitespace or a paren. -/
def invalidTokenChars : List Char → List Char
  | [] => []
  | c :: rest =>
    if cIsSpace c || c = '(' || c = ')' then []
    else c :: invalidTokenChars rest

/-- Invalid-atom failure path of parse_atom: the state is left unmoved and
the slot reports invalid syntax at the current position. -/
def parseAtomInvalid (st : PState) (e : ErrState) :
    Option L0Value × PState × ErrState :=
  (none, st,
   { e with status := .syntaxErr,
            message := some ("Invalid atom starting with: " ++ String.mk (invalidTokenChars st.input)),
            line := st.line, col := st.col })

/-- Symbol attempt of parse_atom. -/
def parseAtomSymbol (st : PState) (e : ErrState) :
    Option L0Value × PState × ErrState :=
  match st.input with
  | c :: rest =>
    if is_symbol_start_char c then
      match takeSymbolChars rest with
      | (cs, r) =>
        if isSeparator r then
          (some (.symbol (String.mk (c :: cs))),
           { st with input := r, col := st.col + 1 + cs.length }, e)
        else parseAtomInvalid st e
    else parseAtomInvalid st e
  | [] => parseAtomInvalid st e

/-- Boolean attempt of parse_atom (#t and #f with a separator after). -/
def parseAtomBool (st : PState) (e : ErrState) :
    Option L0Value × PState × ErrState :=
  match st.input with
  | '#' :: 't' :: rest =>
    if isSeparator rest then
      (some (.boolean true), { st with input := rest, col := st.col + 2 }, e)
    else parseAtomSymbol st e
  | '#' :: 'f' :: rest =>
    if isSeparator rest then
      (some (.boolean false), { st with input := rest, col := st.col + 2 }, e)
    else parseAtomSymbol st e
  | _ => parseAtomSymbol st e

/-- Float attempt of parse_atom: strtod must consume something with float
syntax and stop at a separator; otherwise fall through. -/
def parseAtomFloat (st : PState) (e : ErrState) :
    Option L0Value × PState × ErrState :=
  match strtodParse st.input with
  | some (x, len, rest, true) =>
    if isSeparator rest then
      (some (.float x), { st with input := rest, col := st.col + len }, e)
    else parseAtomBool st e
  | _ => parseAtomBool st e

/-- parse_atom: integer, then float, then boolean, then symbol, otherwise
an invalid-atom error.  A failed attempt leaves the position unchanged. -/
def parse_atom (st : PState) (e : ErrState) :
    Option L0Value × PState × ErrState :=
  match strtolParse st.input with
  | some (n, len, rest) =>
    if isSeparator rest then
      (some (.integer n), { st with input := rest, col := st.col + len }, e)
    else parseAtomFloat st e
  | none => parseAtomFloat st e

/-- String-literal scan: decode the content before the unescaped closing
quote and count the raw characters before it; none when unterminated.
Unknown escapes keep the backslash and the following character. -/
def scanStringContent : List Char → Option (List Char × Nat)
  | [] => none
  | '"' :: _ => some ([], 0)
  | '\\' :: [] => none
  | '\\' :: c :: rest =>
    match scanStringContent rest with
    | none => none
    | some (content, n) =>
      let dec :=
        if c = '\\' then [c]
        else if c = '"' then [c]
        else if c = 'n' then ['\n']
        else if c = 't' then ['\t']
        else ['\\', c]
      some (dec ++ content, n + 2)
  | c :: rest =>
    match scanStringContent rest with
    | none => none
    | some (content, n) => some (c :: content, n + 1)

/-- parse_string_literal: the current character is the opening quote.  The
line counter is not advanced inside string literals, matching the C
code; on an unterminated literal the error is recorded at the column
just after the opening quote. -/
def parse_string_literal (st : PState) (e : ErrState) :
    Option L0Value × PState × ErrState :=
  match st.input with
  | '"' :: rest =>
    match scanStringContent rest with
    | none =>
      (none, { st with input := rest, col := st.col + 1 },
       { e with status := .eofErr, message := some "Unterminated string literal",
                line := st.line, col := st.col + 1 })
    | some (content, rawLen) =>
      (some (.str (String.mk content)),
       { st with input := rest.drop (rawLen + 1), col := st.col + 1 + rawLen + 1 }, e)
  | _ =>
    (none, st,
     { e with status := .syntaxErr,
              message := some "Internal error: parse_string_literal called without a quote",
              line := st.line, col := st.col })

/-- The apostrophe and backquote reader-macro characters. -/
def quoteChar : Char := Char.ofNat 39

def backquoteChar : Char := Char.ofNat 96

/-- Requests of the combined recursive parser: parse_sexpr, and the
element loop of parse_list carrying the elements read so far. -/
inductive ParseReq where
  | pSexpr
  | pList (acc : List L0Value)
deriving DecidableEq

/-- parse_sexpr and parse_list of l0_parser.c as one fuel-indexed function.
The fuel only bounds recursion depth; the entry point supplies more fuel
than any input can consume, and exhaustion (unreachable from the entry
point) reports a position-tagged syntax error. -/
def parseRun (fuel : Nat) (req : ParseReq) (st : PState) (e : ErrState) :
    Option L0Value × PState × ErrState :=
  match fuel with
  | 0 =>
    (none, st,
     { e with status := .syntaxErr, message := some "Parser recursion limit exceeded",
              line := st.line, col := st.col })
  | fuel + 1 =>
    match req with
    | .pSexpr =>
      let st₁ := skipWs st
      match st₁.input with
      | [] => (none, st₁, e)
      | c :: rest =>
        if c = '(' then
          parseRun fuel (.pList []) { st₁ with input := rest, col := st₁.col + 1 } e
        else if c = ')' then
          (none, st₁,
           { e with status := .syntaxErr, message := some "Unexpected closing parenthesis",
                    line := st₁.line, col := st₁.col })
        else if c = backquoteChar then
          match parseRun fuel .pSexpr { st₁ with input := rest, col := st₁.col + 1 } e with
          | (none, st₂, e₂) =>
            if e₂.status = .ok then
              (none, st₂,
               { e₂ with status := .eofErr,
                         message := some "Unexpected end of input after quasiquote",
                         line := st₂.line, col := st₂.col })
            else (none, st₂, e₂)
          | (some x, st₂, e₂) =>
            (some (.pair (.symbol "quasiquote") (.pair x .nil)), st₂, e₂)
        else if c = ',' then
          match rest with
          | '@' :: rest₂ =>
            match parseRun fuel .pSexpr { st₁ with input := rest₂, col := st₁.col + 2 } e with
            | (none, st₂, e₂) =>
              if e₂.status = .ok then
                (none, st₂,
                 { e₂ with status := .eofErr,
                           message := some "Unexpected end of input after unquote",
                           line := st₂.line, col := st₂.col })
              else (none, st₂, e₂)
            | (some x, st₂, e₂) =>
              (some (.pair (.symbol "unquote-splicing") (.pair x .nil)), st₂, e₂)
          | _ =>
            match parseRun fuel .pSexpr { st₁ with input := rest, col := st₁.col + 1 } e with
            | (none, st₂, e₂) =>
              if e₂.status = .ok then
                (none, st₂,
                 { e₂ with status := .eofErr,
                           message := some "Unexpected end of input after unquote",
                           line := st₂.line, col := st₂.col })
              else (none, st₂, e₂)
            | (some x, st₂, e₂) =>
              (some (.pair (.symbol "unquote") (.pair x .nil)), st₂, e₂)
        else if c = quoteChar then
          match parseRun fuel .pSexpr { st₁ with input := rest, col := st₁.col + 1 } e with
          | (none, st₂, e₂) =>
            if e₂.status = .ok then
              (none, st₂,
               { e₂ with status := .eofErr,
                         message := some "Unexpected end of input after quote",
                         line := st₂.line, col := st₂.col })
            else (none, st₂, e₂)
          | (some x, st₂, e₂) =>
            (some (.pair (.symbol "quote") (.pair x .nil)), st₂, e₂)
        else if c = '"' then parse_string_literal st₁ e
        else parse_atom st₁ e
    | .pList acc =>
      let st₁ := skipWs st
      match st₁.input with
      | [] =>
        (none, st₁,
         { e with status := .eofErr, message := some "Unexpected end of input inside list",
                  line := st₁.line, col := st₁.col })
      | c :: rest =>
        if c = ')' then
          (some (listToL0 acc), { st₁ with input := rest, col := st₁.col + 1 }, e)
        else
          match parseRun fuel .pSexpr st₁ e with
          | (none, st₂, e₂) =>
            if e₂.status = .ok then
              (none, st₂,
               { e₂ with status := .eofErr,
                         message := some "Unexpected end of input inside list while expecting an element",
                         line := st₂.line, col := st₂.col })
            else (none, st₂, e₂)
          | (some elem, st₂, e₂) => parseRun fuel (.pList (acc ++ [elem])) st₂ e₂

/-- l0_parse_string: reset the slot, skip leading whitespace and comments,
return null without error on empty input, otherwise parse one
expression (skipping trailing whitespace on success, which is where the
C routine leaves the end pointer). -/
def l0_parse_string (input : String) : Option L0Value × PState × ErrState :=
  let st₀ : PState := { input := input.toList, line := 1, col := 1 }
  let st₁ := skipWs st₀
  match st₁.input with
  | [] => (none, st₁, cleanErr)
  | _ =>
    match parseRun (2 * input.length + 4) .pSexpr st₁ cleanErr with
    | (some v, st₂, e₂) => (some v, skipWs st₂, e₂)
    | (none, st₂, e₂) => (none, st₂, e₂)

/-- Wrapper naming the clause loop of the SF_COND case of l0_eval. -/
def l0_eval_cond_clauses (fuel : Nat) (clauses : L0Value) (env : Nat)
    (st : EvalState) : Option L0Value × EvalState :=
  l0_run fuel (.rCond clauses env) st

/-- A clean error slot in the sense of the specification: ok status and no
message. -/
def cleanSlot (e : ErrState) : Prop := e.status = .ok ∧ e.message = none

/-- A well-reported error: failing status, a non-empty message, and a
position with line and column at least 1. -/
def goodErrSlot (e : ErrState) : Prop :=
  e.status ≠ .ok ∧ (∃ m, e.message = some m ∧ m ≠ "") ∧ 1 ≤ e.line ∧ 1 ≤ e.col

/-- Well-formed parser position: 1-based line and column. -/
def pWF (st : PState) : Prop := 1 ≤ st.line ∧ 1 ≤ st.col

/-- A numeric value: integer or float. -/
def isNumber (v : L0Value) : Bool := l0_is_integer v || l0_is_float v

/-- Numeric payload of a number (0 on other values; only applied to
numbers). -/
def toQ : L0Value → Rat
  | .integer n => (n : Rat)
  | .float x => x
  | _ => 0

/-- Strictly increasing chain test against a running previous value. -/
def chainLt (prev : Rat) : List L0Value → Bool
  | [] => true
  | v :: rest => if prev < toQ v then chainLt (toQ v) rest else false

/-- Strictly decreasing chain test. -/
def chainGt (prev : Rat) : List L0Value → Bool
  | [] => true
  | v :: rest => if toQ v < prev then chainGt (toQ v) rest else false

/-- All remaining values numerically equal to the first argument. -/
def allEqFirst (first : Rat) : List L0Value → Bool
  | [] => true
  | v :: rest => if toQ v = first then allEqFirst first rest else false

/-- Divisor condition of prim_divide: a single argument must be nonzero
(reciprocal), otherwise every argument after the first must be nonzero. -/
def divisorsNonzero : List L0Value → Bool
  | [] => true
  | [x] => toQ x ≠ 0
  | _ :: rest => rest.all (fun v => toQ v ≠ 0)

/-- Proper parameter list value from a list of names. -/
def symListToL0 (ps : List String) : L0Value := listToL0 (ps.map L0Value.symbol)

/-- The frame produced by the parameter-binding loop of l0_apply, as
sequential defines into an initial frame. -/
def bindFrame : List String → List L0Value → List (String × L0Value) →
    List (String × L0Value)
  | p :: ps, a :: as_, fr => bindFrame ps as_ (frameDefine fr p a)
  | _, _, fr => fr

/-- Fresh single-environment store with a clean slot. -/
def initState : EvalState := { envs := [{ frame := [], outer := none }], err := cleanErr }

/-- The expression (if 0 1 2). -/
def c2_if_zero : L0Value :=
  listToL0 [.symbol "if", .integer 0, .integer 1, .integer 2]

/-- The expression (if #f 1). -/
def c2_if_false : L0Value :=
  listToL0 [.symbol "if", .boolean false, .integer 1]

/-- The expression (quasiquote ((unquote-splicing (quote (1 2))))): a
template whose single element is a splice of the list (1 2). -/
def c1_qq_expr : L0Value :=
  listToL0 [.symbol "quasiquote",
    listToL0 [listToL0 [.symbol "unquote-splicing",
      listToL0 [.symbol "quote", listToL0 [.integer 1, .integer 2]]]]]

/-- Transformer body of the macro h: the single expression (quote m),
so h expands to the bare symbol m. -/
def c4_h_body : L0Value := listToL0 [listToL0 [.symbol "quote", .symbol "m"]]

/-- Transformer body of the macro m: the literal 42. -/
def c4_m_body : L0Value := listToL0 [.integer 42]

/-- Macro table binding h and m to their transformer closures. -/
def c4_table : L0Value :=
  listToL0 [.pair (.symbol "h") (.closure .nil c4_h_body 0),
            .pair (.symbol "m") (.closure .nil c4_m_body 0)]

/-- Store whose global frame binds *macro-table* to c4_table. -/
def c4_state : EvalState :=
  { envs := [{ frame := [("*macro-table*", c4_table)], outer := none }], err := cleanErr }

/-- The expression ((h)): a one-element list whose element is the macro
call (h); its operator (h) is a pair, not a symbol. -/
def c4_expr : L0Value := listToL0 [listToL0 [.symbol "h"]]

/-- The form (m), produced by the first macroexpand pass on c4_expr. -/
def c4_mid : L0Value := listToL0 [.symbol "m"]

/-- The expression (cond (#t 1) (else 2) (#f 3)): a non-final else after a
truthy clause. -/
def c8_cond_expr : L0Value :=
  listToL0 [.symbol "cond",
    listToL0 [.boolean true, .integer 1],
    listToL0 [.symbol "else", .integer 2],
    listToL0 [.boolean false, .integer 3]]

/-- The expression (cond (#f 1) (else 2) (#f 3)): clause scanning reaches
the misplaced else. -/
def c8_cond_reached : L0Value :=
  listToL0 [.symbol "cond",
    listToL0 [.boolean false, .integer 1],
    listToL0 [.symbol "else", .integer 2],
    listToL0 [.boolean false, .integer 3]]

/-- Store binding f to the addition primitive but with no *macro-table*. -/
def c9_state : EvalState :=
  { envs := [{ frame := [("f", .primitive "+")], outer := none }], err := cleanErr }

/-- Store binding f to the addition primitive and *macro-table* to nil. -/
def c9_state_ok : EvalState :=
  { envs := [{ frame := [("f", .primitive "+"), ("*macro-table*", .nil)], outer := none }],
    err := cleanErr }

/-- The expression (f 1), used as a macro-free form for idempotence. -/
def c4w_expr : L0Value := listToL0 [.symbol "f", .integer 1]

theorem evalIsTrue_eq_truthy (v : L0Value) : evalIsTrue v = l0_is_truthy v := by
  cases v with
  | boolean b => cases b <;> rfl
  | _ => rfl

/-- C2: conditional truthiness is false exactly for Boolean false; the
inline truth test of the if special form agrees with l0_is_truthy; and
concretely (if 0 1 2) evaluates to 1 while (if #f 1) evaluates to Nil. -/
theorem c2_truthiness_if :
    (∀ v : L0Value, l0_is_truthy v = false ↔ v = .boolean false) ∧
    (∀ v : L0Value, evalIsTrue v = l0_is_truthy v) ∧
    l0_eval 10 c2_if_zero 0 initState = (some (.integer 1), initState) ∧
    l0_eval 10 c2_if_false 0 initState = (some L0Value.nil, initState) := by
  refine ⟨?_, evalIsTrue_eq_truthy, by decide, by decide⟩
  intro v
  cases v with
  | boolean b => cases b <;> simp [l0_is_truthy]
  | _ => simp [l0_is_truthy]

/-- C1 counterexample: on the concrete template ((unquote-splicing
(quote (1 2)))) at depth 1 the expander does not splice; it returns the
null sentinel with the slot reporting that splicing is unimplemented. -/
theorem c1_counterexample :
    l0_eval 10 c1_qq_expr 0 initState =
      (none, { initState with
               err := setRuntime cleanErr "TODO: unquote-splicing is not yet implemented." }) := by
  decide

/-- C1 amended: for every template of the form (unquote-splicing x)
encountered at depth 1, the expander raises a runtime error (splicing is
unimplemented, the fallback the specification allows) instead of
evaluating and splicing. -/
theorem c1_amended (fuel : Nat) (rest : L0Value) (env : Nat) (st : EvalState) :
    l0_expand_quasiquote (fuel + 1) (.pair (.symbol "unquote-splicing") rest) env st 1 =
      (none, { st with err := setRuntime st.err "TODO: unquote-splicing is not yet implemented." }) := by
  simp [l0_expand_quasiquote, l0_run]

/-- C8 counterexample: in (cond (#t 1) (else 2) (#f 3)) the else clause is
present and not last, yet no runtime error is raised; the form evaluates
to 1 with the slot untouched. -/
theorem c8_counterexample :
    l0_eval 10 c8_cond_expr 0 initState = (some (.integer 1), initState) := by
  decide

/-- C8 amended: the first clause whose test evaluates truthy selects its
body for tail evaluation (a body-less truthy clause returns the test
value); a misplaced else raises a runtime error exactly when clause
scanning reaches it, i.e. when every earlier test was untruthy
(concretely, (cond (#f 1) (else 2) (#f 3)) is such an error). -/
theorem c8_amended (fuel : Nat) (test body rest : L0Value) (env : Nat) (st : EvalState) :
    (∀ ebody, rest ≠ .nil →
      l0_eval_cond_clauses (fuel + 1) (.pair (.pair (.symbol "else") ebody) rest) env st =
        (none, { st with err := setRuntime st.err "The else clause must be the last clause in cond." })) ∧
    (∀ v st₂, test ≠ .symbol "else" →
      l0_eval fuel test env st = (some v, st₂) → st₂.err.status = .ok → evalIsTrue v = true →
      l0_eval_cond_clauses (fuel + 1) (.pair (.pair test body) rest) env st =
        (if body = .nil then (some v, st₂) else l0_eval_sequence fuel body env st₂)) ∧
    (∀ v st₂, test ≠ .symbol "else" →
      l0_eval fuel test env st = (some v, st₂) → st₂.err.status = .ok → evalIsTrue v = false →
      l0_eval_cond_clauses (fuel + 1) (.pair (.pair test body) rest) env st =
        l0_eval_cond_clauses fuel rest env st₂) ∧
    (l0_eval 10 c8_cond_reached 0 initState).2.err.status = .runtimeErr := by
  refine ⟨?_, ?_, ?_, by decide⟩
  · intro ebody hrest
    simp only [l0_eval_cond_clauses, l0_run]
    simp [hrest]
  · intro v st₂ hne heval hok htrue
    simp only [l0_eval_cond_clauses, l0_eval, l0_eval_sequence, l0_run] at *
    simp [hne, heval, hok, htrue]
    cases body <;> simp
  · intro v st₂ hne heval hok hfalse
    simp only [l0_eval_cond_clauses, l0_eval, l0_run] at *
    simp [hne, heval, hok, hfalse]

/-- C9: an application whose symbol operator is not a special form
consults *macro-table* before the operator is even looked up; if the
table is unbound anywhere in the chain, or bound to a non-list,
evaluation fails with a runtime error regardless of the operator
binding. -/
theorem c9_macro_table_gate (fuel : Nat) (f : String) (args : L0Value) (env : Nat)
    (st : EvalState) (h₁ : get_special_form_type f = .sfNone) :
    (l0_env_lookup st.envs env "*macro-table*" = none →
      l0_eval (fuel + 1) (.pair (.symbol f) args) env st =
        (none, { st with err := setRuntime st.err "Macro check failed: Global variable *macro-table* not found." })) ∧
    (∀ tv, l0_env_lookup st.envs env "*macro-table*" = some tv → l0_is_list tv = false →
      l0_eval (fuel + 1) (.pair (.symbol f) args) env st =
        (none, { st with err := setRuntime st.err "Macro check failed: Global variable *macro-table* is not a list." })) := by
  constructor
  · intro h₂
    simp only [l0_eval, l0_run, h₁, h₂]
  · intro tv h₂ h₃
    simp only [l0_eval, l0_run, h₁, h₂, h₃]
    simp [h₃]

/-- C9 witness: in a store binding f to the + primitive but with no
*macro-table*, evaluating (f 1 2) fails with the table-not-found error,
even though f is a valid function; with the table bound to nil the same
call yields 3. -/
theorem c9_witness :
    get_special_form_type "f" = .sfNone ∧
    l0_env_lookup c9_state.envs 0 "*macro-table*" = none ∧
    l0_env_lookup c9_state.envs 0 "f" = some (.primitive "+") ∧
    l0_eval 10 (.pair (.symbol "f") (listToL0 [.integer 1, .integer 2])) 0 c9_state =
      (none, { c9_state with
               err := setRuntime cleanErr "Macro check failed: Global variable *macro-table* not found." }) ∧
    (l0_eval 10 (.pair (.symbol "f") (listToL0 [.integer 1, .integer 2])) 0 c9_state_ok).1 =
      some (.integer 3) := by
  refine ⟨by decide, by decide, by decide, ?_, by decide⟩
  exact (c9_macro_table_gate 9 "f" (listToL0 [.integer 1, .integer 2]) 0 c9_state
    (by decide)).1 (by decide)

theorem c8_amended_witness :
    (listToL0 [listToL0 [.boolean false, .integer 3]] ≠ L0Value.nil) ∧
    l0_eval_cond_clauses 6
        (.pair (.pair (.symbol "else") (listToL0 [.integer 2]))
               (listToL0 [listToL0 [.boolean false, .integer 3]])) 0 initState =
      (none, { initState with err := setRuntime cleanErr "The else clause must be the last clause in cond." }) ∧
    l0_eval 5 (L0Value.boolean true) 0 initState = (some (.boolean true), initState) ∧
    l0_eval_cond_clauses 6 (.pair (.pair (.boolean true) (listToL0 [.integer 1])) L0Value.nil) 0 initState =
      (if listToL0 [.integer 1] = L0Value.nil then (some (.boolean true), initState)
       else l0_eval_sequence 5 (listToL0 [.integer 1]) 0 initState) := by
  refine ⟨by decide, ?_, by decide, ?_⟩
  · exact (c8_amended 5 (.boolean true) (listToL0 [.integer 1])
      (listToL0 [listToL0 [.boolean false, .integer 3]]) 0 initState).1
      (listToL0 [.integer 2]) (by decide)
  · exact (c8_amended 5 (.boolean true) (listToL0 [.integer 1]) L0Value.nil 0 initState).2.1
      (.boolean true) initState (by decide) (by decide) (by decide) (by decide)

/-- C4 counterexample: with macros h (expanding to the bare symbol m) and
m (expanding to 42), macroexpand on ((h)) succeeds with (m), and a
second application to that result succeeds with 42, a different form:
macroexpand is not a fixed point. -/
theorem c4_counterexample :
    (l0_macroexpand 20 c4_expr 0 c4_state).1 = some c4_mid ∧
    (l0_macroexpand 20 c4_mid 0 (l0_macroexpand 20 c4_expr 0 c4_state).2).1 =
      some (.integer 42) ∧
    c4_mid ≠ L0Value.integer 42 := by
  decide

theorem errState_eta (e : ErrState) (h₁ : e.status = .ok) (h₂ : e.message = none) :
    { e with status := PStatus.ok, message := none } = e := by
  cases e
  simp_all

theorem find_macro_transformer_empty (st : EvalState) (env : Nat)
    (htab : l0_env_lookup st.envs env "*macro-table*" = some .nil) (op : L0Value) :
    find_macro_transformer op st.envs env st.err = (none, st.err) := by
  cases op <;> simp [find_macro_transformer, htab, l0_is_list, findMacroLoop]

theorem macroexpand_empty_table (st : EvalState) (env : Nat)
    (htab : l0_env_lookup st.envs env "*macro-table*" = some .nil)
    (hok : st.err.status = .ok) :
    ∀ fuel expr res st', l0_macroexpand fuel expr env st = (some res, st') →
      res = expr ∧ st' = st := by
  intro fuel
  induction fuel with
  | zero =>
    intro expr res st' h
    simp [l0_macroexpand, l0_run] at h
  | succ fuel ih =>
    intro expr res st' h
    match expr with
    | .nil | .boolean _ | .integer _ | .float _ | .symbol _ | .str _
    | .primitive _ | .closure _ _ _ | .ref _ =>
      simp [l0_macroexpand, l0_run] at h
      exact ⟨h.1.symm, h.2.symm⟩
    | .pair op args =>
      by_cases hq : op = .symbol "quote"
      · simp [l0_macroexpand, l0_run, hq] at h
        exact ⟨by rw [hq, h.1], h.2.symm⟩
      · have hfind := find_macro_transformer_empty st env htab op
        simp only [l0_macroexpand, l0_run] at h
        rw [if_neg hq, hfind] at h
        simp only [hok, ne_eq, not_true_eq_false, if_false, ite_false] at h
        rcases hcar : l0_run fuel (.rMacroExpand op env) st with ⟨r₁, st₂⟩
        have hst : { st with err := st.err } = st := by cases st; rfl
        rw [hst, hcar] at h
        cases r₁ with
        | none => simp at h
        | some ecar =>
          rcases ih op ecar st₂ hcar with ⟨hec, hst₂⟩
          rw [hst₂] at h
          simp only [hok, ne_eq, not_true_eq_false, if_false, ite_false] at h
          rcases hcdr : l0_run fuel (.rMacroExpand args env) st with ⟨r₂, st₃⟩
          rw [hcdr] at h
          cases r₂ with
          | none => simp at h
          | some ecdr =>
            rcases ih args ecdr st₃ hcdr with ⟨hed, hst₃⟩
            rw [hst₃] at h
            simp only [hok, ne_eq, not_true_eq_false, if_false, ite_false,
              Prod.mk.injEq, Option.some.injEq] at h
            exact ⟨by rw [← h.1, hec, hed], h.2.symm⟩

/-- C4 amended: macroexpand never descends into (quote ...) forms, and it
is a fixed point on environments with no macros (a *macro-table* bound
to the empty list): any successful expansion returns the input
unchanged, so a second application agrees.  In general a second
application may expand further: when a non-symbol operator expands to a
symbol naming a macro, the first pass leaves a macro call the second
pass rewrites (theorem of the counterexample). -/
theorem c4_amended :
    (∀ (fuel : Nat) (x : L0Value) (env : Nat) (st : EvalState),
      l0_macroexpand (fuel + 1) (.pair (.symbol "quote") x) env st =
        (some (.pair (.symbol "quote") x), st)) ∧
    (∀ (fuel : Nat) (expr : L0Value) (env : Nat) (st : EvalState) (res : L0Value)
        (st' : EvalState),
      l0_env_lookup st.envs env "*macro-table*" = some .nil →
      st.err.status = .ok →
      l0_macroexpand fuel expr env st = (some res, st') →
      res = expr ∧ st' = st ∧ l0_macroexpand fuel res env st' = (some res, st')) := by
  constructor
  · intro fuel x env st
    simp [l0_macroexpand, l0_run]
  · intro fuel expr env st res st' htab hok h
    rcases macroexpand_empty_table st env htab hok fuel expr res st' h with ⟨h₁, h₂⟩
    refine ⟨h₁, h₂, ?_⟩
    rw [h₁, h₂] at h ⊢
    exact h

theorem c4_amended_witness :
    l0_env_lookup c9_state_ok.envs 0 "*macro-table*" = some .nil ∧
    c9_state_ok.err.status = .ok ∧
    l0_macroexpand 5 c4w_expr 0 c9_state_ok = (some c4w_expr, c9_state_ok) ∧
    (c4w_expr = c4w_expr ∧ c9_state_ok = c9_state_ok ∧
      l0_macroexpand 5 c4w_expr 0 c9_state_ok = (some c4w_expr, c9_state_ok)) := by
  refine ⟨by decide, by decide, by decide, ?_⟩
  exact c4_amended.2 5 c4w_expr 0 c9_state_ok c4w_expr c9_state_ok
    (by decide) (by decide) (by decide)

/-- C7 counterexample: the comparison primitives do not require two
arguments; with zero or one argument they return #t instead of
signalling an arity error. -/
theorem c7_counterexample :
    prim_less_than L0Value.nil cleanErr = (some (.boolean true), cleanErr) ∧
    prim_equal (.pair (.integer 7) L0Value.nil) cleanErr = (some (.boolean true), cleanErr) ∧
    prim_greater_than L0Value.nil cleanErr = (some (.boolean true), cleanErr) := by
  decide

theorem primLessLoop_nums (l : List L0Value) :
    ∀ (prev : Rat) (e : ErrState), l.all isNumber = true →
      primLessLoop (listToL0 l) prev e = (some (.boolean (chainLt prev l)), e) := by
  induction l with
  | nil => intro prev e _; rfl
  | cons a rest ih =>
    intro prev e h
    simp only [List.all_cons, Bool.and_eq_true] at h
    cases a with
    | integer n =>
      simp only [listToL0, primLessLoop, get_numeric_as_double, chainLt, toQ]
      by_cases hlt : prev < (n : Rat)
      · simp [hlt, ih _ _ h.2]
      · simp [hlt]
    | float x =>
      simp only [listToL0, primLessLoop, get_numeric_as_double, chainLt, toQ]
      by_cases hlt : prev < x
      · simp [hlt, ih _ _ h.2]
      · simp [hlt]
    | _ => simp [isNumber, l0_is_integer, l0_is_float] at h

theorem primGreaterLoop_nums (l : List L0Value) :
    ∀ (prev : Rat) (e : ErrState), l.all isNumber = true →
      primGreaterLoop (listToL0 l) prev e = (some (.boolean (chainGt prev l)), e) := by
  induction l with
  | nil => intro prev e _; rfl
  | cons a rest ih =>
    intro prev e h
    simp only [List.all_cons, Bool.and_eq_true] at h
    cases a with
    | integer n =>
      simp only [listToL0, primGreaterLoop, get_numeric_as_double, chainGt, toQ]
      by_cases hgt : (n : Rat) < prev
      · simp [hgt, ih _ _ h.2]
      · simp [hgt]
    | float x =>
      simp only [listToL0, primGreaterLoop, get_numeric_as_double, chainGt, toQ]
      by_cases hgt : x < prev
      · simp [hgt, ih _ _ h.2]
      · simp [hgt]
    | _ => simp [isNumber, l0_is_integer, l0_is_float] at h

theorem primEqualLoop_nums (l : List L0Value) :
    ∀ (x : Rat) (e : ErrState), l.all isNumber = true →
      primEqualLoop (listToL0 l) (some x) e = (some (.boolean (allEqFirst x l)), e) := by
  induction l with
  | nil => intro x e _; rfl
  | cons a rest ih =>
    intro x e h
    simp only [List.all_cons, Bool.and_eq_true] at h
    cases a with
    | integer n =>
      simp only [listToL0, primEqualLoop, get_numeric_as_double, allEqFirst, toQ]
      by_cases heq : (n : Rat) = x
      · simp [heq, ih _ _ h.2]
      · have : x ≠ (n : Rat) := fun hc => heq hc.symm
        simp [heq, this]
    | float y =>
      simp only [listToL0, primEqualLoop, get_numeric_as_double, allEqFirst, toQ]
      by_cases heq : y = x
      · simp [heq, ih _ _ h.2]
      · have : x ≠ y := fun hc => heq hc.symm
        simp [heq, this]
    | _ => simp [isNumber, l0_is_integer, l0_is_float] at h

/-- C7 amended: =, < and > return Booleans computed by numeric comparison
of integers and floats by value (< strictly increasing against the
running previous value, > strictly decreasing, = comparing every later
argument with the first); but they do not require two arguments - with
zero or one argument all three return #t instead of erroring. -/
theorem c7_amended (a b v : L0Value) (l : List L0Value) (e : ErrState) :
    (prim_equal L0Value.nil e = (some (.boolean true), e) ∧
     prim_equal (.pair v L0Value.nil) e = (some (.boolean true), e) ∧
     prim_less_than L0Value.nil e = (some (.boolean true), e) ∧
     prim_less_than (.pair v L0Value.nil) e = (some (.boolean true), e) ∧
     prim_greater_than L0Value.nil e = (some (.boolean true), e) ∧
     prim_greater_than (.pair v L0Value.nil) e = (some (.boolean true), e)) ∧
    ((a :: b :: l).all isNumber = true →
      prim_less_than (listToL0 (a :: b :: l)) e =
        (some (.boolean (chainLt (toQ a) (b :: l))), e) ∧
      prim_greater_than (listToL0 (a :: b :: l)) e =
        (some (.boolean (chainGt (toQ a) (b :: l))), e) ∧
      prim_equal (listToL0 (a :: b :: l)) e =
        (some (.boolean (allEqFirst (toQ a) (b :: l))), e)) := by
  constructor
  · exact ⟨rfl, rfl, rfl, rfl, rfl, rfl⟩
  · intro h
    simp only [List.all_cons, Bool.and_eq_true] at h
    have hrest : (b :: l).all isNumber = true := by
      simp [List.all_cons, h.2.1, h.2.2]
    refine ⟨?_, ?_, ?_⟩
    · cases a with
      | integer n =>
        simp only [listToL0, prim_less_than, get_numeric_as_double, toQ]
        exact primLessLoop_nums (b :: l) _ e hrest
      | float x =>
        simp only [listToL0, prim_less_than, get_numeric_as_double, toQ]
        exact primLessLoop_nums (b :: l) _ e hrest
      | _ => simp [isNumber, l0_is_integer, l0_is_float] at h
    · cases a with
      | integer n =>
        simp only [listToL0, prim_greater_than, get_numeric_as_double, toQ]
        exact primGreaterLoop_nums (b :: l) _ e hrest
      | float x =>
        simp only [listToL0, prim_greater_than, get_numeric_as_double, toQ]
        exact primGreaterLoop_nums (b :: l) _ e hrest
      | _ => simp [isNumber, l0_is_integer, l0_is_float] at h
    · cases a with
      | integer n =>
        simp only [listToL0, prim_equal, get_numeric_as_double, toQ]
        exact primEqualLoop_nums (b :: l) _ e hrest
      | float x =>
        simp only [listToL0, prim_equal, get_numeric_as_double, toQ]
        exact primEqualLoop_nums (b :: l) _ e hrest
      | _ => simp [isNumber, l0_is_integer, l0_is_float] at h

theorem c7_amended_witness :
    ((L0Value.integer 1) :: (L0Value.integer 2) :: [L0Value.integer 3]).all isNumber = true ∧
    prim_less_than (listToL0 [.integer 1, .integer 2, .integer 3]) cleanErr =
      (some (.boolean (chainLt (toQ (.integer 1)) [.integer 2, .integer 3])), cleanErr) := by
  refine ⟨by decide, ?_⟩
  exact ((c7_amended (.integer 1) (.integer 2) (.integer 7) [.integer 3] cleanErr).2
    (by decide)).1

theorem primEqualLoop_isSome (l : List L0Value) :
    ∀ (fn : Option Rat) (e : ErrState),
      ∃ r e', primEqualLoop (listToL0 l) fn e = (some r, e') := by
  induction l with
  | nil => intro fn e; exact ⟨.boolean true, e, rfl⟩
  | cons a rest ih =>
    intro fn e
    rcases hget : get_numeric_as_double a e "=" with ⟨nn, e₂⟩
    cases fn with
    | none =>
      refine ⟨.boolean false, { e₂ with status := .ok, message := none }, ?_⟩
      show primEqualLoop (.pair a (listToL0 rest)) none e = _
      simp only [primEqualLoop]
      rw [hget]
    | some x =>
      cases nn with
      | none =>
        refine ⟨.boolean false, { e₂ with status := .ok, message := none }, ?_⟩
        show primEqualLoop (.pair a (listToL0 rest)) (some x) e = _
        simp only [primEqualLoop]
        rw [hget]
      | some y =>
        by_cases hne : x ≠ y
        · refine ⟨.boolean false, e₂, ?_⟩
          show primEqualLoop (.pair a (listToL0 rest)) (some x) e = _
          simp only [primEqualLoop]
          rw [hget]
          simp [hne]
        · rcases ih (some x) e₂ with ⟨r, e', hr⟩
          refine ⟨r, e', ?_⟩
          show primEqualLoop (.pair a (listToL0 rest)) (some x) e = _
          simp only [primEqualLoop]
          rw [hget]
          simp only [hne, ite_false, if_neg hne]
          exact hr

theorem primEqualLoop_none_first (b : L0Value) (l : List L0Value) (e : ErrState) :
    primEqualLoop (.pair b (listToL0 l)) none e =
      (some (.boolean false), { e with status := PStatus.ok, message := none }) := by
  rcases e with ⟨es, em, el, ec⟩
  cases b <;> simp [primEqualLoop, get_numeric_as_double, setRuntime]

theorem primEqualLoop_nonnum (l : List L0Value) :
    ∀ (x : Rat) (e : ErrState), e.status = .ok → e.message = none →
      l.any (fun v => !isNumber v) = true →
      primEqualLoop (listToL0 l) (some x) e = (some (.boolean false), e) := by
  induction l with
  | nil => intro x e _ _ h; simp at h
  | cons a rest ih =>
    intro x e h₁ h₂ h
    by_cases ha : isNumber a = true
    · have hrest : rest.any (fun v => !isNumber v) = true := by
        simp only [List.any_cons, Bool.or_eq_true] at h
        rcases h with h | h
        · rw [ha] at h; simp at h
        · exact h
      cases a with
      | integer n =>
        show primEqualLoop (.pair (.integer n) (listToL0 rest)) (some x) e = _
        simp only [primEqualLoop, get_numeric_as_double]
        by_cases hne : x ≠ (n : Rat)
        · rw [if_pos hne]
        · rw [if_neg hne]
          exact ih x e h₁ h₂ hrest
      | float y =>
        show primEqualLoop (.pair (.float y) (listToL0 rest)) (some x) e = _
        simp only [primEqualLoop, get_numeric_as_double]
        by_cases hne : x ≠ y
        · rw [if_pos hne]
        · rw [if_neg hne]
          exact ih x e h₁ h₂ hrest
      | _ => simp [isNumber, l0_is_integer, l0_is_float] at ha
    · rcases e with ⟨es, em, el, ec⟩
      simp only at h₁ h₂
      subst h₁
      subst h₂
      cases a <;>
        simp [isNumber, l0_is_integer, l0_is_float] at ha <;>
        simp [primEqualLoop, listToL0, get_numeric_as_double, setRuntime]

/-- C10: on a proper argument list the primitive = never returns the null
sentinel, whatever the argument types or the incoming slot; and when at
least two arguments are given and some argument is not a number, it
returns Boolean false and leaves the slot clean (resetting any error the
numeric projection recorded). -/
theorem c10_equal_total (l : List L0Value) (e : ErrState) :
    (∃ r e', prim_equal (listToL0 l) e = (some r, e')) ∧
    (e.status = .ok → e.message = none →
      ∀ a b l', l = a :: b :: l' → l.any (fun v => !isNumber v) = true →
      prim_equal (listToL0 l) e = (some (.boolean false), e)) := by
  constructor
  · match l with
    | [] => exact ⟨.boolean true, e, rfl⟩
    | [v] => exact ⟨.boolean true, e, rfl⟩
    | a :: b :: l' =>
      rcases hget : get_numeric_as_double a e "=" with ⟨fn, e₂⟩
      rcases primEqualLoop_isSome (b :: l') fn e₂ with ⟨r, e', hr⟩
      refine ⟨r, e', ?_⟩
      show prim_equal (.pair a (.pair b (listToL0 l'))) e = _
      simp only [prim_equal]
      rw [hget]
      exact hr
  · intro h₁ h₂ a b l' hl h
    subst hl
    cases ha : isNumber a with
    | false =>
      have hloop := primEqualLoop_none_first b l'
      rcases e with ⟨es, em, el, ec⟩
      simp only at h₁ h₂
      subst h₁
      subst h₂
      cases a <;>
        simp [isNumber, l0_is_integer, l0_is_float] at ha <;>
        (show prim_equal (.pair _ (.pair b (listToL0 l'))) _ = _
         simp only [prim_equal, get_numeric_as_double, setRuntime]
         rw [hloop])
    | true =>
      have hrest : (b :: l').any (fun v => !isNumber v) = true := by
        simp only [List.any_cons, Bool.or_eq_true] at h ⊢
        rcases h with h | h
        · rw [ha] at h; simp at h
        · exact h
      cases a with
      | integer n =>
        show prim_equal (.pair (.integer n) (.pair b (listToL0 l'))) e = _
        simp only [prim_equal, get_numeric_as_double]
        exact primEqualLoop_nonnum (b :: l') _ e h₁ h₂ hrest
      | float x =>
        show prim_equal (.pair (.float x) (.pair b (listToL0 l'))) e = _
        simp only [prim_equal, get_numeric_as_double]
        exact primEqualLoop_nonnum (b :: l') _ e h₁ h₂ hrest
      | _ => simp [isNumber, l0_is_integer, l0_is_float] at ha

theorem c10_witness :
    cleanErr.status = PStatus.ok ∧ cleanErr.message = none ∧
    ([L0Value.integer 1, L0Value.symbol "x"].any (fun v => !isNumber v) = true) ∧
    prim_equal (listToL0 [.integer 1, .symbol "x"]) cleanErr =
      (some (.boolean false), cleanErr) := by
  refine ⟨rfl, rfl, by decide, ?_⟩
  exact (c10_equal_total [.integer 1, .symbol "x"] cleanErr).2 rfl rfl
    (.integer 1) (.symbol "x") [] rfl (by decide)

theorem get_concat (pre : List L0Env) (x : L0Env) :
    (pre ++ [x]).get? pre.length = some x := by
  induction pre with
  | nil => rfl
  | cons h t ih => exact ih

theorem set_concat (pre : List L0Env) (x y : L0Env) :
    (pre ++ [x]).set pre.length y = pre ++ [y] := by
  induction pre with
  | nil => rfl
  | cons h t ih => simp [List.set, ih]

theorem l0_env_define_concat (pre : List L0Env) (fr : List (String × L0Value))
    (out : Option Nat) (s : String) (v : L0Value) :
    l0_env_define (pre ++ [{ frame := fr, outer := out }]) pre.length s v =
      pre ++ [{ frame := frameDefine fr s v, outer := out }] := by
  simp only [l0_env_define, get_concat, set_concat]

theorem l0_is_nil_listToL0 (l : List L0Value) :
    l0_is_nil (listToL0 l) = l.isEmpty := by
  cases l <;> rfl

theorem bindLoop_concat (ps : List String) :
    ∀ (argv : List L0Value) (pre : List L0Env) (fr : List (String × L0Value))
      (out : Option Nat),
      bindLoop (symListToL0 ps) (listToL0 argv) pre.length
          (pre ++ [{ frame := fr, outer := out }]) =
        (pre ++ [{ frame := bindFrame ps argv fr, outer := out }],
         symListToL0 (ps.drop (min ps.length argv.length)),
         listToL0 (argv.drop (min ps.length argv.length))) := by
  induction ps with
  | nil =>
    intro argv pre fr out
    cases argv <;> rfl
  | cons p ps ih =>
    intro argv pre fr out
    cases argv with
    | nil => rfl
    | cons a argv =>
      show bindLoop (.pair (.symbol p) (symListToL0 ps)) (.pair a (listToL0 argv)) _ _ = _
      simp only [bindLoop]
      rw [l0_env_define_concat]
      rw [ih argv pre (frameDefine fr p a) out]
      simp [bindFrame, Nat.succ_min_succ]

theorem frameLookup_cons (p q : String) (a : L0Value) (fr : List (String × L0Value)) :
    frameLookup ((p, a) :: fr) q = if p = q then some a else frameLookup fr q := rfl

theorem bindFrame_zip (ps : List String) :
    ∀ (argv : List L0Value) (fr : List (String × L0Value)), ps.Nodup →
      (∀ q ∈ ps, frameLookup fr q = none) →
      bindFrame ps argv fr = (ps.zip argv).reverse ++ fr := by
  induction ps with
  | nil => intro argv fr _ _; cases argv <;> rfl
  | cons p ps ih =>
    intro argv fr hnd hdisj
    cases argv with
    | nil => rfl
    | cons a argv =>
      have hp : frameLookup fr p = none := hdisj p (by simp)
      have hdef : frameDefine fr p a = (p, a) :: fr := by
        simp [frameDefine, hp]
      show bindFrame (p :: ps) (a :: argv) fr = _
      simp only [bindFrame, hdef]
      rw [ih argv ((p, a) :: fr) (List.nodup_cons.mp hnd).2]
      · simp
      · intro q hq
        rw [frameLookup_cons]
        have hne : p ≠ q := by
          intro hc
          exact (List.nodup_cons.mp hnd).1 (hc ▸ hq)
        simp [hne, hdisj q (by simp [hq])]

/-- C5: applying a closure whose parameter list is a proper list of
symbols extends the captured environment with a fresh frame; with
matching argument count the body runs as a begin sequence in that frame
(so its value is the last body value), while a count mismatch is a
runtime error returning the null sentinel; and with distinct parameter
names the fresh frame is exactly the parameter-to-argument binding. -/
theorem c5_closure_apply (fuel : Nat) (ps : List String) (argv : List L0Value)
    (body : L0Value) (cenv env : Nat) (st : EvalState) :
    (ps.length ≠ argv.length →
      l0_apply (fuel + 1) (.closure (symListToL0 ps) body cenv) (listToL0 argv) env st =
        (none, { st with
          envs := st.envs ++ [{ frame := bindFrame ps argv [], outer := some cenv }],
          err := setRuntime st.err "Function called with incorrect number of arguments." })) ∧
    (ps.length = argv.length →
      l0_apply (fuel + 1) (.closure (symListToL0 ps) body cenv) (listToL0 argv) env st =
        l0_eval_sequence fuel body st.envs.length
          { st with envs := st.envs ++ [{ frame := bindFrame ps argv [], outer := some cenv }] }) ∧
    (ps.Nodup → bindFrame ps argv [] = (ps.zip argv).reverse) := by
  rw [show l0_apply (fuel + 1) (.closure (symListToL0 ps) body cenv) (listToL0 argv) env st = (match bindLoop (symListToL0 ps) (listToL0 argv) st.envs.length (st.envs ++ [{ frame := [], outer := some cenv }]) with | (envs₂, pLeft, aLeft) => if !(l0_is_nil pLeft && l0_is_nil aLeft) then (none, { st with envs := envs₂, err := setRuntime st.err "Function called with incorrect number of arguments." }) else l0_run fuel (.rEvalSeq body st.envs.length) { st with envs := envs₂ }) from rfl]
  simp only [l0_env_extend]
  rw [bindLoop_concat ps argv st.envs [] (some cenv)]
  simp only [l0_is_nil_listToL0, symListToL0]
  refine ⟨?_, ?_, fun hnd => by simpa using bindFrame_zip ps argv [] hnd (by simp [frameLookup])⟩
  · intro hne
    rcases Nat.lt_or_ge ps.length argv.length with h | h
    · have hk : ps.length ⊓ argv.length = ps.length := by omega
      rw [hk, List.drop_length]
      cases hd : argv.drop ps.length with
      | nil =>
        exfalso
        rw [List.drop_eq_nil_iff] at hd
        omega
      | cons x xs => simp
    · have hk : ps.length ⊓ argv.length = argv.length := by omega
      rw [hk, List.drop_length]
      cases hd : ps.drop argv.length with
      | nil =>
        exfalso
        rw [List.drop_eq_nil_iff] at hd
        omega
      | cons x xs => simp
  · intro heq
    have hk : ps.length ⊓ argv.length = ps.length := by omega
    have hd : argv.drop ps.length = [] := by
      rw [heq]
      exact List.drop_length argv
    rw [hk, List.drop_length, hd]
    simp [l0_eval_sequence]

theorem c5_witness :
    (["x", "y"].length = [L0Value.integer 2, L0Value.integer 3].length) ∧
    (["x", "y"].length ≠ [L0Value.integer 2].length) ∧
    (["x", "y"].Nodup) ∧
    l0_apply 10 (.closure (symListToL0 ["x", "y"]) (listToL0 [.symbol "y"]) 0)
        (listToL0 [L0Value.integer 2, L0Value.integer 3]) 0 initState =
      l0_eval_sequence 9 (listToL0 [.symbol "y"]) 1
        { initState with envs := initState.envs ++
            [{ frame := bindFrame ["x", "y"] [L0Value.integer 2, L0Value.integer 3] [],
               outer := some 0 }] } ∧
    l0_apply 10 (.closure (symListToL0 ["x", "y"]) (listToL0 [.symbol "y"]) 0)
        (listToL0 [L0Value.integer 2]) 0 initState =
      (none, { initState with
        envs := initState.envs ++
          [{ frame := bindFrame ["x", "y"] [L0Value.integer 2] [], outer := some 0 }],
        err := setRuntime cleanErr "Function called with incorrect number of arguments." }) ∧
    bindFrame ["x", "y"] [L0Value.integer 2, L0Value.integer 3] [] =
      ((["x", "y"].zip [L0Value.integer 2, L0Value.integer 3]).reverse) := by
  refine ⟨by decide, by decide, by decide, ?_, ?_, ?_⟩
  · exact (c5_closure_apply 9 ["x", "y"] [.integer 2, .integer 3]
      (listToL0 [.symbol "y"]) 0 0 initState).2.1 (by decide)
  · exact (c5_closure_apply 9 ["x", "y"] [.integer 2]
      (listToL0 [.symbol "y"]) 0 0 initState).1 (by decide)
  · exact (c5_closure_apply 9 ["x", "y"] [.integer 2, .integer 3]
      (listToL0 [.symbol "y"]) 0 0 initState).2.2 (by decide)

theorem primAddLoop_ints (l : List L0Value) :
    ∀ (isum : Int) (fsum : Rat) (e : ErrState), l.all l0_is_integer = true →
      ∃ n, primAddLoop (listToL0 l) false isum fsum e = (some (.integer n), e) := by
  induction l with
  | nil => intro isum fsum e _; exact ⟨isum, rfl⟩
  | cons a rest ih =>
    intro isum fsum e h
    simp only [List.all_cons, Bool.and_eq_true] at h
    cases a with
    | integer n =>
      rcases ih (isum + n) fsum e h.2 with ⟨m, hm⟩
      exact ⟨m, by simpa [listToL0, primAddLoop] using hm⟩
    | _ => simp [l0_is_integer] at h

theorem primAddLoop_float (l : List L0Value) :
    ∀ (hf : Bool) (isum : Int) (fsum : Rat) (e : ErrState), l.all isNumber = true →
      (hf = true ∨ l.any l0_is_float = true) →
      ∃ x, primAddLoop (listToL0 l) hf isum fsum e = (some (.float x), e) := by
  induction l with
  | nil =>
    intro hf isum fsum e _ hd
    rcases hd with hd | hd
    · subst hd; exact ⟨fsum, rfl⟩
    · simp at hd
  | cons a rest ih =>
    intro hf isum fsum e h hd
    simp only [List.all_cons, Bool.and_eq_true] at h
    cases a with
    | integer n =>
      cases hf with
      | true =>
        rcases ih true isum (fsum + (n : Rat)) e h.2 (Or.inl rfl) with ⟨x, hx⟩
        exact ⟨x, by simpa [listToL0, primAddLoop] using hx⟩
      | false =>
        have hrest : rest.any l0_is_float = true := by
          rcases hd with hd | hd
          · simp at hd
          · simpa [l0_is_float] using hd
        rcases ih false (isum + n) fsum e h.2 (Or.inr hrest) with ⟨x, hx⟩
        exact ⟨x, by simpa [listToL0, primAddLoop] using hx⟩
    | float y =>
      rcases ih true isum ((if hf then fsum else (isum : Rat)) + y) e h.2 (Or.inl rfl) with ⟨x, hx⟩
      exact ⟨x, by simpa [listToL0, primAddLoop] using hx⟩
    | _ => simp [isNumber, l0_is_integer, l0_is_float] at h

theorem primAddLoop_err (l : List L0Value) :
    ∀ (hf : Bool) (isum : Int) (fsum : Rat) (e : ErrState), l.all isNumber = false →
      (primAddLoop (listToL0 l) hf isum fsum e).1 = none ∧
      (primAddLoop (listToL0 l) hf isum fsum e).2.status = .runtimeErr := by
  induction l with
  | nil => intro _ _ _ _ h; simp at h
  | cons a rest ih =>
    intro hf isum fsum e h
    simp only [List.all_cons, Bool.and_eq_true, not_and] at h
    cases a with
    | integer n =>
      have hrest : rest.all isNumber = false := by
        cases hr : rest.all isNumber with
        | false => rfl
        | true => rw [show isNumber (L0Value.integer n) = true from rfl, hr] at h; simp at h
      cases hf with
      | false => simpa [listToL0, primAddLoop] using ih false (isum + n) fsum e hrest
      | true => simpa [listToL0, primAddLoop] using ih true isum (fsum + (n : Rat)) e hrest
    | float y =>
      have hrest : rest.all isNumber = false := by
        cases hr : rest.all isNumber with
        | false => rfl
        | true => rw [show isNumber (L0Value.float y) = true from rfl, hr] at h; simp at h
      simpa [listToL0, primAddLoop] using ih true isum _ e hrest
    | _ => simp [listToL0, primAddLoop, setRuntime]

theorem primMulLoop_ints (l : List L0Value) :
    ∀ (ip : Int) (fp : Rat) (e : ErrState), l.all l0_is_integer = true →
      ∃ n, primMulLoop (listToL0 l) false ip fp e = (some (.integer n), e) := by
  induction l with
  | nil => intro ip fp e _; exact ⟨ip, rfl⟩
  | cons a rest ih =>
    intro ip fp e h
    simp only [List.all_cons, Bool.and_eq_true] at h
    cases a with
    | integer n =>
      rcases ih (ip * n) fp e h.2 with ⟨m, hm⟩
      exact ⟨m, by simpa [listToL0, primMulLoop] using hm⟩
    | _ => simp [l0_is_integer] at h

theorem primMulLoop_float (l : List L0Value) :
    ∀ (hf : Bool) (ip : Int) (fp : Rat) (e : ErrState), l.all isNumber = true →
      (hf = true ∨ l.any l0_is_float = true) →
      ∃ x, primMulLoop (listToL0 l) hf ip fp e = (some (.float x), e) := by
  induction l with
  | nil =>
    intro hf ip fp e _ hd
    rcases hd with hd | hd
    · subst hd; exact ⟨fp, rfl⟩
    · simp at hd
  | cons a rest ih =>
    intro hf ip fp e h hd
    simp only [List.all_cons, Bool.and_eq_true] at h
    cases a with
    | integer n =>
      cases hf with
      | true =>
        rcases ih true ip (fp * (n : Rat)) e h.2 (Or.inl rfl) with ⟨x, hx⟩
        exact ⟨x, by simpa [listToL0, primMulLoop] using hx⟩
      | false =>
        have hrest : rest.any l0_is_float = true := by
          rcases hd with hd | hd
          · simp at hd
          · simpa [l0_is_float] using hd
        rcases ih false (ip * n) fp e h.2 (Or.inr hrest) with ⟨x, hx⟩
        exact ⟨x, by simpa [listToL0, primMulLoop] using hx⟩
    | float y =>
      rcases ih true ip ((if hf then fp else (ip : Rat)) * y) e h.2 (Or.inl rfl) with ⟨x, hx⟩
      exact ⟨x, by simpa [listToL0, primMulLoop] using hx⟩
    | _ => simp [isNumber, l0_is_integer, l0_is_float] at h

theorem primMulLoop_err (l : List L0Value) :
    ∀ (hf : Bool) (ip : Int) (fp : Rat) (e : ErrState), l.all isNumber = false →
      (primMulLoop (listToL0 l) hf ip fp e).1 = none ∧
      (primMulLoop (listToL0 l) hf ip fp e).2.status = .runtimeErr := by
  induction l with
  | nil => intro _ _ _ _ h; simp at h
  | cons a rest ih =>
    intro hf ip fp e h
    simp only [List.all_cons, Bool.and_eq_true, not_and] at h
    cases a with
    | integer n =>
      have hrest : rest.all isNumber = false := by
        cases hr : rest.all isNumber with
        | false => rfl
        | true => rw [show isNumber (L0Value.integer n) = true from rfl, hr] at h; simp at h
      cases hf with
      | false => simpa [listToL0, primMulLoop] using ih false (ip * n) fp e hrest
      | true => simpa [listToL0, primMulLoop] using ih true ip (fp * (n : Rat)) e hrest
    | float y =>
      have hrest : rest.all isNumber = false := by
        cases hr : rest.all isNumber with
        | false => rfl
        | true => rw [show isNumber (L0Value.float y) = true from rfl, hr] at h; simp at h
      simpa [listToL0, primMulLoop] using ih true ip _ e hrest
    | _ => simp [listToL0, primMulLoop, setRuntime]

theorem primSubLoop_ints (l : List L0Value) :
    ∀ (ir : Int) (fr : Rat) (e : ErrState), l.all l0_is_integer = true →
      ∃ n, primSubLoop (listToL0 l) false ir fr e = (some (.integer n), e) := by
  induction l with
  | nil => intro ir fr e _; exact ⟨ir, rfl⟩
  | cons a rest ih =>
    intro ir fr e h
    simp only [List.all_cons, Bool.and_eq_true] at h
    cases a with
    | integer n =>
      rcases ih (ir - ((n : Rat) : Rat).floor) fr e h.2 with ⟨m, hm⟩
      exact ⟨m, by simpa [listToL0, primSubLoop, get_numeric_as_double, l0_is_float] using hm⟩
    | _ => simp [l0_is_integer] at h

theorem primSubLoop_float (l : List L0Value) :
    ∀ (hf : Bool) (ir : Int) (fr : Rat) (e : ErrState), l.all isNumber = true →
      (hf = true ∨ l.any l0_is_float = true) →
      ∃ x, primSubLoop (listToL0 l) hf ir fr e = (some (.float x), e) := by
  induction l with
  | nil =>
    intro hf ir fr e _ hd
    rcases hd with hd | hd
    · subst hd; exact ⟨fr, rfl⟩
    · simp at hd
  | cons a rest ih =>
    intro hf ir fr e h hd
    simp only [List.all_cons, Bool.and_eq_true] at h
    cases a with
    | integer n =>
      cases hf with
      | true =>
        rcases ih true ir (fr - (n : Rat)) e h.2 (Or.inl rfl) with ⟨x, hx⟩
        exact ⟨x, by simpa [listToL0, primSubLoop, get_numeric_as_double, l0_is_float] using hx⟩
      | false =>
        have hrest : rest.any l0_is_float = true := by
          rcases hd with hd | hd
          · simp at hd
          · simpa [l0_is_float] using hd
        rcases ih false (ir - ((n : Rat)).floor) fr e h.2 (Or.inr hrest) with ⟨x, hx⟩
        exact ⟨x, by simpa [listToL0, primSubLoop, get_numeric_as_double, l0_is_float] using hx⟩
    | float y =>
      cases hf with
      | true =>
        rcases ih true ir (fr - y) e h.2 (Or.inl rfl) with ⟨x, hx⟩
        exact ⟨x, by simpa [listToL0, primSubLoop, get_numeric_as_double, l0_is_float] using hx⟩
      | false =>
        rcases ih true ir ((ir : Rat) - y) e h.2 (Or.inl rfl) with ⟨x, hx⟩
        exact ⟨x, by simpa [listToL0, primSubLoop, get_numeric_as_double, l0_is_float] using hx⟩
    | _ => simp [isNumber, l0_is_integer, l0_is_float] at h

theorem primSubLoop_err (l : List L0Value) :
    ∀ (hf : Bool) (ir : Int) (fr : Rat) (e : ErrState), l.all isNumber = false →
      (primSubLoop (listToL0 l) hf ir fr e).1 = none ∧
      (primSubLoop (listToL0 l) hf ir fr e).2.status = .runtimeErr := by
  induction l with
  | nil => intro _ _ _ _ h; simp at h
  | cons a rest ih =>
    intro hf ir fr e h
    simp only [List.all_cons, Bool.and_eq_true, not_and] at h
    cases a with
    | integer n =>
      have hrest : rest.all isNumber = false := by
        cases hr : rest.all isNumber with
        | false => rfl
        | true => rw [show isNumber (L0Value.integer n) = true from rfl, hr] at h; simp at h
      cases hf with
      | false =>
        simpa [listToL0, primSubLoop, get_numeric_as_double, l0_is_float] using
          ih false (ir - ((n : Rat)).floor) fr e hrest
      | true =>
        simpa [listToL0, primSubLoop, get_numeric_as_double, l0_is_float] using
          ih true ir (fr - (n : Rat)) e hrest
    | float y =>
      have hrest : rest.all isNumber = false := by
        cases hr : rest.all isNumber with
        | false => rfl
        | true => rw [show isNumber (L0Value.float y) = true from rfl, hr] at h; simp at h
      cases hf with
      | true =>
        simpa [listToL0, primSubLoop, get_numeric_as_double, l0_is_float] using
          ih true ir (fr - y) e hrest
      | false =>
        simpa [listToL0, primSubLoop, get_numeric_as_double, l0_is_float] using
          ih true ir ((ir : Rat) - y) e hrest
    | _ => simp [listToL0, primSubLoop, get_numeric_as_double, setRuntime]

theorem primDivLoop_ok (l : List L0Value) :
    ∀ (acc : Rat) (e : ErrState), l.all isNumber = true →
      l.all (fun v => toQ v ≠ 0) = true →
      ∃ x, primDivLoop (listToL0 l) acc e = (some (.float x), e) := by
  induction l with
  | nil => intro acc e _ _; exact ⟨acc, rfl⟩
  | cons a rest ih =>
    intro acc e h hz
    simp only [List.all_cons, Bool.and_eq_true] at h hz
    have hz0 : ¬ (toQ a = 0) := by simpa using hz.1
    cases a with
    | integer n =>
      rcases ih (acc / (n : Rat)) e h.2 hz.2 with ⟨x, hx⟩
      refine ⟨x, ?_⟩
      have : ¬ ((n : Rat) = 0) := by simpa [toQ] using hz0
      simpa [listToL0, primDivLoop, get_numeric_as_double, this] using hx
    | float y =>
      rcases ih (acc / y) e h.2 hz.2 with ⟨x, hx⟩
      refine ⟨x, ?_⟩
      have : ¬ (y = 0) := by simpa [toQ] using hz0
      simpa [listToL0, primDivLoop, get_numeric_as_double, this] using hx
    | _ => simp [isNumber, l0_is_integer, l0_is_float] at h

theorem primDivLoop_err (l : List L0Value) :
    ∀ (acc : Rat) (e : ErrState),
      (l.all isNumber = false ∨ l.any (fun v => toQ v = 0) = true) →
      (primDivLoop (listToL0 l) acc e).1 = none ∧
      (primDivLoop (listToL0 l) acc e).2.status = .runtimeErr := by
  induction l with
  | nil =>
    intro acc e h
    rcases h with h | h <;> simp at h
  | cons a rest ih =>
    intro acc e h
    cases a with
    | integer n =>
      by_cases hz : (n : Rat) = 0
      · simp [listToL0, primDivLoop, get_numeric_as_double, hz, setRuntime]
      · have hrest : rest.all isNumber = false ∨ rest.any (fun v => toQ v = 0) = true := by
          rcases h with h | h
          · left
            simpa [List.all_cons, isNumber, l0_is_integer] using h
          · right
            simp only [List.any_cons, Bool.or_eq_true] at h
            rcases h with h | h
            · exfalso; rw [show toQ (L0Value.integer n) = (n : Rat) from rfl] at h
              exact hz (by simpa using h)
            · exact h
        simpa [listToL0, primDivLoop, get_numeric_as_double, hz] using ih (acc / (n : Rat)) e hrest
    | float y =>
      by_cases hz : y = 0
      · simp [listToL0, primDivLoop, get_numeric_as_double, hz, setRuntime]
      · have hrest : rest.all isNumber = false ∨ rest.any (fun v => toQ v = 0) = true := by
          rcases h with h | h
          · left
            simpa [List.all_cons, isNumber, l0_is_float] using h
          · right
            simp only [List.any_cons, Bool.or_eq_true] at h
            rcases h with h | h
            · exfalso; rw [show toQ (L0Value.float y) = y from rfl] at h
              exact hz (by simpa using h)
            · exact h
        simpa [listToL0, primDivLoop, get_numeric_as_double, hz] using ih (acc / y) e hrest
    | _ => simp [listToL0, primDivLoop, get_numeric_as_double, setRuntime]

theorem not_all_nonzero_any_zero (l : List L0Value) :
    l.all (fun v => toQ v ≠ 0) = false → l.any (fun v => toQ v = 0) = true := by
  induction l with
  | nil => intro h; simp at h
  | cons a rest ih =>
    intro h
    by_cases hz : toQ a = 0
    · simp [hz]
    · rw [List.all_cons] at h
      simp only [List.any_cons, Bool.or_eq_true]
      right
      apply ih
      cases hr : rest.all (fun v => toQ v ≠ 0) with
      | false => rfl
      | true => rw [hr] at h; simp [hz] at h

theorem nums_any_float (l : List L0Value) :
    l.all isNumber = true → l.all l0_is_integer = false → l.any l0_is_float = true := by
  induction l with
  | nil => intro _ h; simp at h
  | cons a rest ih =>
    intro h1 h2
    simp only [List.all_cons, Bool.and_eq_true] at h1
    cases a with
    | integer n =>
      have h2' : rest.all l0_is_integer = false := by
        cases hr : rest.all l0_is_integer with
        | false => rfl
        | true =>
          rw [List.all_cons, hr] at h2
          simp [l0_is_integer] at h2
      simpa [l0_is_float] using ih h1.2 h2'
    | float y => simp [l0_is_float]
    | _ => simp [isNumber, l0_is_integer, l0_is_float] at h1

/-- C6 counterexample: the empty argument list is (vacuously) a list of
integers, yet prim_subtract on it does not return an Integer - it fails
with an arity error. -/
theorem c6_counterexample :
    prim_subtract L0Value.nil cleanErr =
      (none, setRuntime cleanErr "Primitive -: Requires at least one argument.") ∧
    ([] : List L0Value).all l0_is_integer = true := by
  decide

/-- C6 amended: over proper argument lists of numbers, + and * return an
Integer when all arguments are Integers and a Float otherwise (the empty
list included); - obeys the same rule but requires at least one
argument; / requires at least one argument and returns a Float unless a
divisor (the sole argument for the reciprocal form, otherwise any
argument after the first) is zero, which is a runtime error; and on a
list containing a non-number all four fail with the null sentinel and a
runtime error in the slot. -/
theorem c6_amended (l : List L0Value) (e : ErrState) :
    (l.all isNumber = true →
      ((l.all l0_is_integer = true →
          (∃ n, prim_add (listToL0 l) e = (some (.integer n), e)) ∧
          (∃ n, prim_multiply (listToL0 l) e = (some (.integer n), e)) ∧
          (l ≠ [] → ∃ n, prim_subtract (listToL0 l) e = (some (.integer n), e))) ∧
       (l.all l0_is_integer = false →
          (∃ x, prim_add (listToL0 l) e = (some (.float x), e)) ∧
          (∃ x, prim_multiply (listToL0 l) e = (some (.float x), e)) ∧
          (l ≠ [] → ∃ x, prim_subtract (listToL0 l) e = (some (.float x), e))) ∧
       (l ≠ [] → divisorsNonzero l = true →
          ∃ x, prim_divide (listToL0 l) e = (some (.float x), e)) ∧
       (l ≠ [] → divisorsNonzero l = false →
          (prim_divide (listToL0 l) e).1 = none ∧
          (prim_divide (listToL0 l) e).2.status = .runtimeErr))) ∧
    (l.all isNumber = false →
      ((prim_add (listToL0 l) e).1 = none ∧
       (prim_add (listToL0 l) e).2.status = .runtimeErr) ∧
      ((prim_multiply (listToL0 l) e).1 = none ∧
       (prim_multiply (listToL0 l) e).2.status = .runtimeErr) ∧
      ((prim_subtract (listToL0 l) e).1 = none ∧
       (prim_subtract (listToL0 l) e).2.status = .runtimeErr) ∧
      ((prim_divide (listToL0 l) e).1 = none ∧
       (prim_divide (listToL0 l) e).2.status = .runtimeErr)) := by
  constructor
  · intro hnum
    refine ⟨?_, ?_, ?_, ?_⟩
    · intro hint
      refine ⟨primAddLoop_ints l 0 0 e hint, primMulLoop_ints l 1 1 e hint, ?_⟩
      intro hne
      match l, hnum, hint with
      | a :: rest, hnum, hint =>
        simp only [List.all_cons, Bool.and_eq_true] at hint
        cases a with
        | integer n =>
          cases rest with
          | nil =>
            exact ⟨-((n : Rat)).floor,
              by simp [listToL0, prim_subtract, get_numeric_as_double, l0_is_float]⟩
          | cons b rest' =>
            rcases primSubLoop_ints (b :: rest') ((n : Rat)).floor (n : Rat) e hint.2 with ⟨m, hm⟩
            exact ⟨m, by
              simpa [listToL0, prim_subtract, get_numeric_as_double, l0_is_float] using hm⟩
        | _ => simp [l0_is_integer] at hint
    · intro hint
      have hfl := nums_any_float l hnum hint
      refine ⟨primAddLoop_float l false 0 0 e hnum (Or.inr hfl),
              primMulLoop_float l false 1 1 e hnum (Or.inr hfl), ?_⟩
      intro hne
      match l, hnum, hfl with
      | a :: rest, hnum, hfl =>
        simp only [List.all_cons, Bool.and_eq_true] at hnum
        cases a with
        | integer n =>
          have hrf : rest.any l0_is_float = true := by
            simpa [l0_is_float] using hfl
          cases rest with
          | nil => simp at hrf
          | cons b rest' =>
            rcases primSubLoop_float (b :: rest') false ((n : Rat)).floor (n : Rat) e hnum.2
                (Or.inr hrf) with ⟨x, hx⟩
            exact ⟨x, by
              simpa [listToL0, prim_subtract, get_numeric_as_double, l0_is_float] using hx⟩
        | float y =>
          cases rest with
          | nil =>
            exact ⟨-y, by simp [listToL0, prim_subtract, get_numeric_as_double, l0_is_float]⟩
          | cons b rest' =>
            rcases primSubLoop_float (b :: rest') true (y.floor) y e hnum.2
                (Or.inl rfl) with ⟨x, hx⟩
            exact ⟨x, by
              simpa [listToL0, prim_subtract, get_numeric_as_double, l0_is_float] using hx⟩
        | _ => simp [isNumber, l0_is_integer, l0_is_float] at hnum
    · intro hne hdiv
      match l, hnum, hdiv with
      | a :: rest, hnum, hdiv =>
        simp only [List.all_cons, Bool.and_eq_true] at hnum
        cases rest with
        | nil =>
          have hz : ¬ (toQ a = 0) := by
            simpa [divisorsNonzero] using hdiv
          cases a with
          | integer n =>
            have : ¬ ((n : Rat) = 0) := by simpa [toQ] using hz
            exact ⟨1 / (n : Rat),
              by simp [listToL0, prim_divide, get_numeric_as_double, this]⟩
          | float y =>
            have : ¬ (y = 0) := by simpa [toQ] using hz
            exact ⟨1 / y, by simp [listToL0, prim_divide, get_numeric_as_double, this]⟩
          | _ => simp [isNumber, l0_is_integer, l0_is_float] at hnum
        | cons b rest' =>
          have hz : (b :: rest').all (fun v => toQ v ≠ 0) = true := by
            simpa [divisorsNonzero] using hdiv
          cases a with
          | integer n =>
            rcases primDivLoop_ok (b :: rest') (n : Rat) e hnum.2 hz with ⟨x, hx⟩
            exact ⟨x, by simpa [listToL0, prim_divide, get_numeric_as_double] using hx⟩
          | float y =>
            rcases primDivLoop_ok (b :: rest') y e hnum.2 hz with ⟨x, hx⟩
            exact ⟨x, by simpa [listToL0, prim_divide, get_numeric_as_double] using hx⟩
          | _ => simp [isNumber, l0_is_integer, l0_is_float] at hnum
    · intro hne hdiv
      match l, hnum, hdiv with
      | a :: rest, hnum, hdiv =>
        simp only [List.all_cons, Bool.and_eq_true] at hnum
        cases rest with
        | nil =>
          have hz : toQ a = 0 := by
            simpa [divisorsNonzero] using hdiv
          cases a with
          | integer n =>
            have : (n : Rat) = 0 := by simpa [toQ] using hz
            simp [listToL0, prim_divide, get_numeric_as_double, this, setRuntime]
          | float y =>
            have : y = 0 := by simpa [toQ] using hz
            simp [listToL0, prim_divide, get_numeric_as_double, this, setRuntime]
          | _ => simp [isNumber, l0_is_integer, l0_is_float] at hnum
        | cons b rest' =>
          have hz : (b :: rest').any (fun v => toQ v = 0) = true :=
            not_all_nonzero_any_zero (b :: rest') (by simpa [divisorsNonzero] using hdiv)
          cases a with
          | integer n =>
            have := primDivLoop_err (b :: rest') (n : Rat) e (Or.inr hz)
            constructor
            · simpa [listToL0, prim_divide, get_numeric_as_double] using this.1
            · simpa [listToL0, prim_divide, get_numeric_as_double] using this.2
          | float y =>
            have := primDivLoop_err (b :: rest') y e (Or.inr hz)
            constructor
            · simpa [listToL0, prim_divide, get_numeric_as_double] using this.1
            · simpa [listToL0, prim_divide, get_numeric_as_double] using this.2
          | _ => simp [isNumber, l0_is_integer, l0_is_float] at hnum
  · intro hnum
    refine ⟨primAddLoop_err l false 0 0 e hnum, primMulLoop_err l false 1 1 e hnum, ?_, ?_⟩
    · match l, hnum with
      | a :: rest, hnum =>
        by_cases ha : isNumber a = true
        · have hrest : rest.all isNumber = false := by
            cases hr : rest.all isNumber with
            | false => rfl
            | true => rw [List.all_cons, ha, hr] at hnum; simp at hnum
          cases rest with
          | nil => simp at hrest
          | cons b rest' =>
            cases a with
            | integer n =>
              have := primSubLoop_err (b :: rest') false ((n : Rat)).floor (n : Rat) e hrest
              constructor
              · simpa [listToL0, prim_subtract, get_numeric_as_double, l0_is_float] using this.1
              · simpa [listToL0, prim_subtract, get_numeric_as_double, l0_is_float] using this.2
            | float y =>
              have := primSubLoop_err (b :: rest') true (y.floor) y e hrest
              constructor
              · simpa [listToL0, prim_subtract, get_numeric_as_double, l0_is_float] using this.1
              · simpa [listToL0, prim_subtract, get_numeric_as_double, l0_is_float] using this.2
            | _ => simp [isNumber, l0_is_integer, l0_is_float] at ha
        · cases a <;> simp [isNumber, l0_is_integer, l0_is_float] at ha <;>
            simp [listToL0, prim_subtract, get_numeric_as_double, setRuntime]
    · match l, hnum with
      | a :: rest, hnum =>
        by_cases ha : isNumber a = true
        · have hrest : rest.all isNumber = false := by
            cases hr : rest.all isNumber with
            | false => rfl
            | true => rw [List.all_cons, ha, hr] at hnum; simp at hnum
          cases rest with
          | nil => simp at hrest
          | cons b rest' =>
            cases a with
            | integer n =>
              have := primDivLoop_err (b :: rest') (n : Rat) e (Or.inl hrest)
              constructor
              · simpa [listToL0, prim_divide, get_numeric_as_double] using this.1
              · simpa [listToL0, prim_divide, get_numeric_as_double] using this.2
            | float y =>
              have := primDivLoop_err (b :: rest') y e (Or.inl hrest)
              constructor
              · simpa [listToL0, prim_divide, get_numeric_as_double] using this.1
              · simpa [listToL0, prim_divide, get_numeric_as_double] using this.2
            | _ => simp [isNumber, l0_is_integer, l0_is_float] at ha
        · cases a <;> simp [isNumber, l0_is_integer, l0_is_float] at ha <;>
            simp [listToL0, prim_divide, get_numeric_as_double, setRuntime]

theorem c6_amended_witness :
    ([L0Value.integer 1, L0Value.integer 2].all isNumber = true) ∧
    ([L0Value.integer 1, L0Value.integer 2].all l0_is_integer = true) ∧
    (∃ n, prim_add (listToL0 [.integer 1, .integer 2]) cleanErr =
      (some (.integer n), cleanErr)) ∧
    ([L0Value.integer 1, L0Value.float (1/2)].all isNumber = true) ∧
    ([L0Value.integer 1, L0Value.float (1/2)].all l0_is_integer = false) ∧
    (∃ x, prim_multiply (listToL0 [.integer 1, .float (1/2)]) cleanErr =
      (some (.float x), cleanErr)) ∧
    (divisorsNonzero [L0Value.integer 1, L0Value.integer 0] = false) ∧
    ((prim_divide (listToL0 [.integer 1, .integer 0]) cleanErr).1 = none) ∧
    ([L0Value.integer 1, L0Value.symbol "x"].all isNumber = false) ∧
    ((prim_subtract (listToL0 [.integer 1, .symbol "x"]) cleanErr).1 = none) := by
  refine ⟨by decide, by decide, ?_, by decide, by decide, ?_, by decide, ?_, by decide, ?_⟩
  · exact (((c6_amended [.integer 1, .integer 2] cleanErr).1 (by decide)).1 (by decide)).1
  · exact (((c6_amended [.integer 1, .float (1/2)] cleanErr).1 (by decide)).2.1 (by decide)).2.1
  · exact ((((c6_amended [.integer 1, .integer 0] cleanErr).1 (by decide)).2.2.2
      (by decide)) (by decide)).1
  · exact (((c6_amended [.integer 1, .symbol "x"] cleanErr).2 (by decide)).2.2.1).1

theorem skipWsAux_wf (l : List Char) :
    ∀ (flag : Bool) (line col : Nat), 1 ≤ line → 1 ≤ col →
      1 ≤ (skipWsAux l flag line col).2.1 ∧ 1 ≤ (skipWsAux l flag line col).2.2 := by
  induction l with
  | nil => intro flag line col h₁ h₂; exact ⟨h₁, h₂⟩
  | cons c rest ih =>
    intro flag line col h₁ h₂
    simp only [skipWsAux]
    split
    · split
      · exact ih false (line + 1) 1 (by omega) (by omega)
      · exact ih true line (col + 1) h₁ (by omega)
    · split
      · exact ih true line (col + 1) h₁ (by omega)
      · split
        · split
          · exact ih false (line + 1) 1 (by omega) (by omega)
          · exact ih false line (col + 1) h₁ (by omega)
        · exact ⟨h₁, h₂⟩

theorem skipWs_wf (st : PState) (h : pWF st) : pWF (skipWs st) := by
  have := skipWsAux_wf st.input false st.line st.col h.1 h.2
  simp only [skipWs]
  rcases hr : skipWsAux st.input false st.line st.col with ⟨l', ln', c'⟩
  rw [hr] at this
  exact ⟨this.1, this.2⟩

theorem skipWsAux_fix (l : List Char) :
    ∀ (flag : Bool) (line col : Nat),
      skipWsAux (skipWsAux l flag line col).1 false
          (skipWsAux l flag line col).2.1 (skipWsAux l flag line col).2.2 =
        skipWsAux l flag line col := by
  induction l with
  | nil => intro flag line col; rfl
  | cons c rest ih =>
    intro flag line col
    simp only [skipWsAux]
    split
    · split
      · exact ih false (line + 1) 1
      · exact ih true line (col + 1)
    · split
      · exact ih true line (col + 1)
      · split
        · split
          · exact ih false (line + 1) 1
          · exact ih false line (col + 1)
        · next h₁ h₂ h₃ =>
          simp only [skipWsAux]
          simp [h₂, h₃]

theorem skipWs_idem (st : PState) : skipWs (skipWs st) = skipWs st := by
  have := skipWsAux_fix st.input false st.line st.col
  simp only [skipWs]
  rcases hr : skipWsAux st.input false st.line st.col with ⟨l', ln', c'⟩
  rw [hr] at this
  simp only at this ⊢
  rw [this]

theorem invalid_atom_msg_ne (t : String) : ("Invalid atom starting with: " ++ t) ≠ "" := by
  intro h
  have h2 := congrArg String.length h
  rw [String.length_append] at h2
  have h3 : ("Invalid atom starting with: " : String).length = 28 := rfl
  have h4 : ("" : String).length = 0 := rfl
  rw [h3, h4] at h2
  omega

theorem one_le_add_left (a b : Nat) (h : 1 ≤ a) : 1 ≤ a + b := by omega

theorem parseAtomInvalid_spec (st : PState) (e : ErrState) (hwf : pWF st) :
    ∃ e', parseAtomInvalid st e = (none, st, e') ∧ goodErrSlot e' := by
  refine ⟨_, rfl, ?_⟩
  refine ⟨by simp [parseAtomInvalid], ⟨_, rfl, invalid_atom_msg_ne _⟩, ?_, ?_⟩
  · exact hwf.1
  · exact hwf.2

theorem parseAtomSymbol_spec (st : PState) (e : ErrState) (hwf : pWF st) :
    (∃ v st', parseAtomSymbol st e = (some v, st', e) ∧ pWF st') ∨
    (∃ e', parseAtomSymbol st e = (none, st, e') ∧ goodErrSlot e') := by
  rcases hinp : st.input with _ | ⟨c, rest⟩
  · right
    rcases parseAtomInvalid_spec st e hwf with ⟨e', he, hg⟩
    exact ⟨e', by simp [parseAtomSymbol, hinp, he], hg⟩
  · by_cases hstart : is_symbol_start_char c = true
    · rcases htk : takeSymbolChars rest with ⟨cs, r⟩
      by_cases hsep : isSeparator r = true
      · left
        refine ⟨.symbol (String.mk (c :: cs)), { st with input := r, col := st.col + 1 + cs.length },
          ?_, hwf.1, one_le_add_left _ _ (one_le_add_left _ _ hwf.2)⟩
        simp [parseAtomSymbol, hinp, hstart, htk, hsep]
      · right
        rcases parseAtomInvalid_spec st e hwf with ⟨e', he, hg⟩
        refine ⟨e', ?_, hg⟩
        simp [parseAtomSymbol, hinp, hstart, htk, hsep, he]
    · right
      rcases parseAtomInvalid_spec st e hwf with ⟨e', he, hg⟩
      refine ⟨e', ?_, hg⟩
      simp [parseAtomSymbol, hinp, hstart, he]

theorem parseAtomBool_spec (st : PState) (e : ErrState) (hwf : pWF st) :
    (∃ v st', parseAtomBool st e = (some v, st', e) ∧ pWF st') ∨
    (∃ e', parseAtomBool st e = (none, st, e') ∧ goodErrSlot e') := by
  have hsym := parseAtomSymbol_spec st e hwf
  rcases hinp : st.input with _ | ⟨c, rest⟩
  · rcases hsym with ⟨v, st', h, hw⟩ | ⟨e', h, hg⟩
    · exact Or.inl ⟨v, st', by simpa [parseAtomBool, hinp] using h, hw⟩
    · exact Or.inr ⟨e', by simpa [parseAtomBool, hinp] using h, hg⟩
  · rcases hrest : rest with _ | ⟨c₂, rest₂⟩
    · have hred : parseAtomBool st e = parseAtomSymbol st e := by
        subst hrest
        by_cases hc : c = '#'
        · subst hc; simp [parseAtomBool, hinp]
        · simp [parseAtomBool, hinp, hc]
      rcases hsym with ⟨v, st', h, hw⟩ | ⟨e', h, hg⟩
      · exact Or.inl ⟨v, st', by rw [hred]; exact h, hw⟩
      · exact Or.inr ⟨e', by rw [hred]; exact h, hg⟩
    · subst hrest
      by_cases hc : c = '#'
      · subst hc
        by_cases ht : c₂ = 't'
        · subst ht
          by_cases hsep : isSeparator rest₂ = true
          · exact Or.inl ⟨.boolean true, { st with input := rest₂, col := st.col + 2 },
              by simp [parseAtomBool, hinp, hsep], hwf.1, one_le_add_left _ _ hwf.2⟩
          · rcases hsym with ⟨v, st', h, hw⟩ | ⟨e', h, hg⟩
            · exact Or.inl ⟨v, st', by simpa [parseAtomBool, hinp, hsep] using h, hw⟩
            · exact Or.inr ⟨e', by simpa [parseAtomBool, hinp, hsep] using h, hg⟩
        · by_cases hf : c₂ = 'f'
          · subst hf
            by_cases hsep : isSeparator rest₂ = true
            · exact Or.inl ⟨.boolean false, { st with input := rest₂, col := st.col + 2 },
                by simp [parseAtomBool, hinp, hsep], hwf.1, one_le_add_left _ _ hwf.2⟩
            · rcases hsym with ⟨v, st', h, hw⟩ | ⟨e', h, hg⟩
              · exact Or.inl ⟨v, st', by simpa [parseAtomBool, hinp, hsep] using h, hw⟩
              · exact Or.inr ⟨e', by simpa [parseAtomBool, hinp, hsep] using h, hg⟩
          · rcases hsym with ⟨v, st', h, hw⟩ | ⟨e', h, hg⟩
            · exact Or.inl ⟨v, st', by simpa [parseAtomBool, hinp, ht, hf] using h, hw⟩
            · exact Or.inr ⟨e', by simpa [parseAtomBool, hinp, ht, hf] using h, hg⟩
      · rcases hsym with ⟨v, st', h, hw⟩ | ⟨e', h, hg⟩
        · exact Or.inl ⟨v, st', by simpa [parseAtomBool, hinp, hc] using h, hw⟩
        · exact Or.inr ⟨e', by simpa [parseAtomBool, hinp, hc] using h, hg⟩

theorem parseAtomFloat_spec (st : PState) (e : ErrState) (hwf : pWF st) :
    (∃ v st', parseAtomFloat st e = (some v, st', e) ∧ pWF st') ∨
    (∃ e', parseAtomFloat st e = (none, st, e') ∧ goodErrSlot e') := by
  have hbool := parseAtomBool_spec st e hwf
  rcases hsd : strtodParse st.input with _ | ⟨x, len, rest, dot⟩
  · rcases hbool with ⟨v, st', h, hw⟩ | ⟨e', h, hg⟩
    · exact Or.inl ⟨v, st', by simpa [parseAtomFloat, hsd] using h, hw⟩
    · exact Or.inr ⟨e', by simpa [parseAtomFloat, hsd] using h, hg⟩
  · cases dot with
    | false =>
      rcases hbool with ⟨v, st', h, hw⟩ | ⟨e', h, hg⟩
      · exact Or.inl ⟨v, st', by simpa [parseAtomFloat, hsd] using h, hw⟩
      · exact Or.inr ⟨e', by simpa [parseAtomFloat, hsd] using h, hg⟩
    | true =>
      by_cases hsep : isSeparator rest = true
      · exact Or.inl ⟨.float x, { st with input := rest, col := st.col + len },
          by simp [parseAtomFloat, hsd, hsep], hwf.1, one_le_add_left _ _ hwf.2⟩
      · rcases hbool with ⟨v, st', h, hw⟩ | ⟨e', h, hg⟩
        · exact Or.inl ⟨v, st', by simpa [parseAtomFloat, hsd, hsep] using h, hw⟩
        · exact Or.inr ⟨e', by simpa [parseAtomFloat, hsd, hsep] using h, hg⟩

theorem parse_atom_spec (st : PState) (e : ErrState) (hwf : pWF st) :
    (∃ v st', parse_atom st e = (some v, st', e) ∧ pWF st') ∨
    (∃ e', parse_atom st e = (none, st, e') ∧ goodErrSlot e') := by
  have hfl := parseAtomFloat_spec st e hwf
  rcases hsl : strtolParse st.input with _ | ⟨n, len, rest⟩
  · rcases hfl with ⟨v, st', h, hw⟩ | ⟨e', h, hg⟩
    · exact Or.inl ⟨v, st', by simpa [parse_atom, hsl] using h, hw⟩
    · exact Or.inr ⟨e', by simpa [parse_atom, hsl] using h, hg⟩
  · by_cases hsep : isSeparator rest = true
    · exact Or.inl ⟨.integer n, { st with input := rest, col := st.col + len },
        by simp [parse_atom, hsl, hsep], hwf.1, one_le_add_left _ _ hwf.2⟩
    · rcases hfl with ⟨v, st', h, hw⟩ | ⟨e', h, hg⟩
      · exact Or.inl ⟨v, st', by simpa [parse_atom, hsl, hsep] using h, hw⟩
      · exact Or.inr ⟨e', by simpa [parse_atom, hsl, hsep] using h, hg⟩

theorem parse_string_literal_spec (st : PState) (e : ErrState) (hwf : pWF st) :
    (∃ v st', parse_string_literal st e = (some v, st', e) ∧ pWF st') ∨
    (∃ st' e', parse_string_literal st e = (none, st', e') ∧ goodErrSlot e' ∧ pWF st') := by
  rcases hinp : st.input with _ | ⟨c, rest⟩
  · right
    refine ⟨st, { e with status := .syntaxErr, message := some "Internal error: parse_string_literal called without a quote", line := st.line, col := st.col }, by simp [parse_string_literal, hinp], ?_, hwf⟩
    exact ⟨by simp, ⟨_, rfl, by decide⟩, hwf.1, hwf.2⟩
  · by_cases hq : c = '"'
    · subst hq
      rcases hscan : scanStringContent rest with _ | ⟨content, rawLen⟩
      · right
        refine ⟨{ st with input := rest, col := st.col + 1 }, { e with status := .eofErr, message := some "Unterminated string literal", line := st.line, col := st.col + 1 }, by simp [parse_string_literal, hinp, hscan], ?_, hwf.1, one_le_add_left _ _ hwf.2⟩
        exact ⟨by simp, ⟨_, rfl, by decide⟩, hwf.1, one_le_add_left _ _ hwf.2⟩
      · left
        exact ⟨.str (String.mk content),
          { st with input := rest.drop (rawLen + 1), col := st.col + 1 + rawLen + 1 },
          by simp [parse_string_literal, hinp, hscan], hwf.1,
          one_le_add_left _ _ (one_le_add_left _ _ (one_le_add_left _ _ hwf.2))⟩
    · right
      refine ⟨st, { e with status := .syntaxErr, message := some "Internal error: parse_string_literal called without a quote", line := st.line, col := st.col }, by simp [parse_string_literal, hinp, hq], ?_, hwf⟩
      exact ⟨by simp, ⟨_, rfl, by decide⟩, hwf.1, hwf.2⟩

theorem parseRun_spec (fuel : Nat) :
    ∀ (req : ParseReq) (st : PState) (e : ErrState), pWF st → cleanSlot e →
      pWF (parseRun fuel req st e).2.1 ∧
      (∀ v, (parseRun fuel req st e).1 = some v → (parseRun fuel req st e).2.2 = e) ∧
      ((parseRun fuel req st e).1 = none →
        goodErrSlot (parseRun fuel req st e).2.2 ∨
        (req = .pSexpr ∧ (parseRun fuel req st e).2.2 = e ∧ (skipWs st).input = [])) := by
  induction fuel with
  | zero =>
    intro req st e hwf _
    refine ⟨hwf, ?_, ?_⟩
    · intro v hv; simp [parseRun] at hv
    · intro _
      left
      refine ⟨by simp [parseRun], ⟨"Parser recursion limit exceeded", by simp [parseRun], by decide⟩, ?_, ?_⟩
      · simpa [parseRun] using hwf.1
      · simpa [parseRun] using hwf.2
  | succ fuel ih =>
    intro req st e hwf hclean
    have hwf₁ : pWF (skipWs st) := skipWs_wf st hwf
    cases req with
    | pSexpr =>
      rcases hinp : (skipWs st).input with _ | ⟨c, rest⟩
      · have hres : parseRun (fuel + 1) .pSexpr st e = (none, skipWs st, e) := by
          simp [parseRun, hinp]
        rw [hres]
        exact ⟨hwf₁, by intro v hv; simp at hv, fun _ => Or.inr ⟨rfl, rfl, rfl⟩⟩
      · by_cases h1 : c = '('
        · subst h1
          have hres : parseRun (fuel + 1) .pSexpr st e =
              parseRun fuel (.pList []) { input := rest, line := (skipWs st).line, col := (skipWs st).col + 1 } e := by
            simp [parseRun, hinp]
          rw [hres]
          have hs := ih (.pList []) { input := rest, line := (skipWs st).line, col := (skipWs st).col + 1 } e
            ⟨hwf₁.1, one_le_add_left _ _ hwf₁.2⟩ hclean
          refine ⟨hs.1, hs.2.1, ?_⟩
          intro hnone
          rcases hs.2.2 hnone with hg | ⟨hreq, _⟩
          · exact Or.inl hg
          · simp at hreq
        · by_cases h2 : c = ')'
          · subst h2
            have hres : parseRun (fuel + 1) .pSexpr st e =
                (none, skipWs st, { e with status := .syntaxErr, message := some "Unexpected closing parenthesis", line := (skipWs st).line, col := (skipWs st).col }) := by
              simp [parseRun, hinp]
            rw [hres]
            refine ⟨hwf₁, by intro v hv; simp at hv, fun _ => Or.inl ?_⟩
            exact ⟨by simp, ⟨_, rfl, by decide⟩, hwf₁.1, hwf₁.2⟩
          · by_cases h3 : c = backquoteChar
            · subst h3
              have hres : parseRun (fuel + 1) .pSexpr st e =
                  (match parseRun fuel .pSexpr { input := rest, line := (skipWs st).line, col := (skipWs st).col + 1 } e with
                   | (none, st₂, e₂) =>
                     if e₂.status = .ok then
                       (none, st₂, { e₂ with status := .eofErr, message := some "Unexpected end of input after quasiquote", line := st₂.line, col := st₂.col })
                     else (none, st₂, e₂)
                   | (some x, st₂, e₂) =>
                     (some (.pair (.symbol "quasiquote") (.pair x .nil)), st₂, e₂)) := by
                simp [parseRun, hinp, backquoteChar]
              rcases hsub : parseRun fuel .pSexpr { input := rest, line := (skipWs st).line, col := (skipWs st).col + 1 } e with ⟨r₂, st₂, e₂⟩
              have hs := ih .pSexpr { input := rest, line := (skipWs st).line, col := (skipWs st).col + 1 } e
                ⟨hwf₁.1, one_le_add_left _ _ hwf₁.2⟩ hclean
              rw [hsub] at hs
              rw [hres, hsub]
              cases r₂ with
              | some x =>
                exact ⟨hs.1, fun v hv => hs.2.1 x rfl, by intro hn; simp at hn⟩
              | none =>
                rcases hs.2.2 rfl with hg | ⟨_, he₂, _⟩
                · have : ¬ (e₂.status = .ok) := hg.1
                  simp only [this, if_false, ite_false]
                  exact ⟨hs.1, by intro v hv; simp at hv, fun _ => Or.inl hg⟩
                · have : e₂.status = .ok := by have h9 : e₂ = e := he₂; rw [h9]; exact hclean.1
                  simp only [this, if_true, ite_true]
                  refine ⟨hs.1, by intro v hv; simp at hv, fun _ => Or.inl ?_⟩
                  exact ⟨by simp, ⟨_, rfl, by decide⟩, hs.1.1, hs.1.2⟩
            · by_cases h4 : c = ','
              · subst h4
                rcases hrest : rest with _ | ⟨c₂, rest₂⟩
                · have hres : parseRun (fuel + 1) .pSexpr st e =
                      (match parseRun fuel .pSexpr { input := ([] : List Char), line := (skipWs st).line, col := (skipWs st).col + 1 } e with
                       | (none, st₂, e₂) =>
                         if e₂.status = .ok then
                           (none, st₂, { e₂ with status := .eofErr, message := some "Unexpected end of input after unquote", line := st₂.line, col := st₂.col })
                         else (none, st₂, e₂)
                       | (some x, st₂, e₂) =>
                         (some (.pair (.symbol "unquote") (.pair x .nil)), st₂, e₂)) := by
                    simp [parseRun, hinp, hrest, backquoteChar]
                  rcases hsub : parseRun fuel .pSexpr { input := ([] : List Char), line := (skipWs st).line, col := (skipWs st).col + 1 } e with ⟨r₂, st₂, e₂⟩
                  have hs := ih .pSexpr { input := ([] : List Char), line := (skipWs st).line, col := (skipWs st).col + 1 } e
                    ⟨hwf₁.1, one_le_add_left _ _ hwf₁.2⟩ hclean
                  rw [hsub] at hs
                  rw [hres, hsub]
                  cases r₂ with
                  | some x =>
                    exact ⟨hs.1, fun v hv => hs.2.1 x rfl, by intro hn; simp at hn⟩
                  | none =>
                    rcases hs.2.2 rfl with hg | ⟨_, he₂, _⟩
                    · have : ¬ (e₂.status = .ok) := hg.1
                      simp only [this, if_false, ite_false]
                      exact ⟨hs.1, by intro v hv; simp at hv, fun _ => Or.inl hg⟩
                    · have : e₂.status = .ok := by have h9 : e₂ = e := he₂; rw [h9]; exact hclean.1
                      simp only [this, if_true, ite_true]
                      refine ⟨hs.1, by intro v hv; simp at hv, fun _ => Or.inl ?_⟩
                      exact ⟨by simp, ⟨_, rfl, by decide⟩, hs.1.1, hs.1.2⟩
                · by_cases hat : c₂ = '@'
                  · subst hat
                    have hres : parseRun (fuel + 1) .pSexpr st e =
                        (match parseRun fuel .pSexpr { input := rest₂, line := (skipWs st).line, col := (skipWs st).col + 2 } e with
                         | (none, st₂, e₂) =>
                           if e₂.status = .ok then
                             (none, st₂, { e₂ with status := .eofErr, message := some "Unexpected end of input after unquote", line := st₂.line, col := st₂.col })
                           else (none, st₂, e₂)
                         | (some x, st₂, e₂) =>
                           (some (.pair (.symbol "unquote-splicing") (.pair x .nil)), st₂, e₂)) := by
                      simp [parseRun, hinp, hrest, backquoteChar]
                    rcases hsub : parseRun fuel .pSexpr { input := rest₂, line := (skipWs st).line, col := (skipWs st).col + 2 } e with ⟨r₂, st₂, e₂⟩
                    have hs := ih .pSexpr { input := rest₂, line := (skipWs st).line, col := (skipWs st).col + 2 } e
                      ⟨hwf₁.1, one_le_add_left _ _ hwf₁.2⟩ hclean
                    rw [hsub] at hs
                    rw [hres, hsub]
                    cases r₂ with
                    | some x =>
                      exact ⟨hs.1, fun v hv => hs.2.1 x rfl, by intro hn; simp at hn⟩
                    | none =>
                      rcases hs.2.2 rfl with hg | ⟨_, he₂, _⟩
                      · have : ¬ (e₂.status = .ok) := hg.1
                        simp only [this, if_false, ite_false]
                        exact ⟨hs.1, by intro v hv; simp at hv, fun _ => Or.inl hg⟩
                      · have : e₂.status = .ok := by have h9 : e₂ = e := he₂; rw [h9]; exact hclean.1
                        simp only [this, if_true, ite_true]
                        refine ⟨hs.1, by intro v hv; simp at hv, fun _ => Or.inl ?_⟩
                        exact ⟨by simp, ⟨_, rfl, by decide⟩, hs.1.1, hs.1.2⟩
                  · have hres : parseRun (fuel + 1) .pSexpr st e =
                        (match parseRun fuel .pSexpr { input := c₂ :: rest₂, line := (skipWs st).line, col := (skipWs st).col + 1 } e with
                         | (none, st₂, e₂) =>
                           if e₂.status = .ok then
                             (none, st₂, { e₂ with status := .eofErr, message := some "Unexpected end of input after unquote", line := st₂.line, col := st₂.col })
                           else (none, st₂, e₂)
                         | (some x, st₂, e₂) =>
                           (some (.pair (.symbol "unquote") (.pair x .nil)), st₂, e₂)) := by
                      simp [parseRun, hinp, hrest, backquoteChar, hat]
                    rcases hsub : parseRun fuel .pSexpr { input := c₂ :: rest₂, line := (skipWs st).line, col := (skipWs st).col + 1 } e with ⟨r₂, st₂, e₂⟩
                    have hs := ih .pSexpr { input := c₂ :: rest₂, line := (skipWs st).line, col := (skipWs st).col + 1 } e
                      ⟨hwf₁.1, one_le_add_left _ _ hwf₁.2⟩ hclean
                    rw [hsub] at hs
                    rw [hres, hsub]
                    cases r₂ with
                    | some x =>
                      exact ⟨hs.1, fun v hv => hs.2.1 x rfl, by intro hn; simp at hn⟩
                    | none =>
                      rcases hs.2.2 rfl with hg | ⟨_, he₂, _⟩
                      · have : ¬ (e₂.status = .ok) := hg.1
                        simp only [this, if_false, ite_false]
                        exact ⟨hs.1, by intro v hv; simp at hv, fun _ => Or.inl hg⟩
                      · have : e₂.status = .ok := by have h9 : e₂ = e := he₂; rw [h9]; exact hclean.1
                        simp only [this, if_true, ite_true]
                        refine ⟨hs.1, by intro v hv; simp at hv, fun _ => Or.inl ?_⟩
                        exact ⟨by simp, ⟨_, rfl, by decide⟩, hs.1.1, hs.1.2⟩
              · by_cases h5 : c = quoteChar
                · subst h5
                  have hres : parseRun (fuel + 1) .pSexpr st e =
                      (match parseRun fuel .pSexpr { input := rest, line := (skipWs st).line, col := (skipWs st).col + 1 } e with
                       | (none, st₂, e₂) =>
                         if e₂.status = .ok then
                           (none, st₂, { e₂ with status := .eofErr, message := some "Unexpected end of input after quote", line := st₂.line, col := st₂.col })
                         else (none, st₂, e₂)
                       | (some x, st₂, e₂) =>
                         (some (.pair (.symbol "quote") (.pair x .nil)), st₂, e₂)) := by
                    simp [parseRun, hinp, backquoteChar, quoteChar]
                  rcases hsub : parseRun fuel .pSexpr { input := rest, line := (skipWs st).line, col := (skipWs st).col + 1 } e with ⟨r₂, st₂, e₂⟩
                  have hs := ih .pSexpr { input := rest, line := (skipWs st).line, col := (skipWs st).col + 1 } e
                    ⟨hwf₁.1, one_le_add_left _ _ hwf₁.2⟩ hclean
                  rw [hsub] at hs
                  rw [hres, hsub]
                  cases r₂ with
                  | some x =>
                    exact ⟨hs.1, fun v hv => hs.2.1 x rfl, by intro hn; simp at hn⟩
                  | none =>
                    rcases hs.2.2 rfl with hg | ⟨_, he₂, _⟩
                    · have : ¬ (e₂.status = .ok) := hg.1
                      simp only [this, if_false, ite_false]
                      exact ⟨hs.1, by intro v hv; simp at hv, fun _ => Or.inl hg⟩
                    · have : e₂.status = .ok := by have h9 : e₂ = e := he₂; rw [h9]; exact hclean.1
                      simp only [this, if_true, ite_true]
                      refine ⟨hs.1, by intro v hv; simp at hv, fun _ => Or.inl ?_⟩
                      exact ⟨by simp, ⟨_, rfl, by decide⟩, hs.1.1, hs.1.2⟩
                · by_cases h6 : c = '"'
                  · subst h6
                    have hres : parseRun (fuel + 1) .pSexpr st e = parse_string_literal (skipWs st) e := by
                      simp [parseRun, hinp, backquoteChar, quoteChar]
                    rw [hres]
                    rcases parse_string_literal_spec (skipWs st) e hwf₁ with ⟨v, st₂, hr, hw⟩ | ⟨st₂, e₂, hr, hg, hw⟩
                    · rw [hr]
                      exact ⟨hw, fun v₂ hv => rfl, by intro hn; simp at hn⟩
                    · rw [hr]
                      exact ⟨hw, by intro v hv; simp at hv, fun _ => Or.inl hg⟩
                  · have hres : parseRun (fuel + 1) .pSexpr st e = parse_atom (skipWs st) e := by
                      simp [parseRun, hinp, h1, h2, h3, h4, h5, h6]
                    rw [hres]
                    rcases parse_atom_spec (skipWs st) e hwf₁ with ⟨v, st₂, hr, hw⟩ | ⟨e₂, hr, hg⟩
                    · rw [hr]
                      exact ⟨hw, fun v₂ hv => rfl, by intro hn; simp at hn⟩
                    · rw [hr]
                      exact ⟨hwf₁, by intro v hv; simp at hv, fun _ => Or.inl hg⟩
    | pList acc =>
      rcases hinp : (skipWs st).input with _ | ⟨c, rest⟩
      · have hres : parseRun (fuel + 1) (.pList acc) st e =
            (none, skipWs st, { e with status := .eofErr, message := some "Unexpected end of input inside list", line := (skipWs st).line, col := (skipWs st).col }) := by
          simp [parseRun, hinp]
        rw [hres]
        refine ⟨hwf₁, by intro v hv; simp at hv, fun _ => Or.inl ?_⟩
        exact ⟨by simp, ⟨_, rfl, by decide⟩, hwf₁.1, hwf₁.2⟩
      · by_cases hc : c = ')'
        · subst hc
          have hres : parseRun (fuel + 1) (.pList acc) st e =
              (some (listToL0 acc), { input := rest, line := (skipWs st).line, col := (skipWs st).col + 1 }, e) := by
            simp [parseRun, hinp]
          rw [hres]
          exact ⟨⟨hwf₁.1, one_le_add_left _ _ hwf₁.2⟩, fun v hv => rfl, by intro hn; simp at hn⟩
        · have hres : parseRun (fuel + 1) (.pList acc) st e =
              (match parseRun fuel .pSexpr (skipWs st) e with
               | (none, st₂, e₂) =>
                 if e₂.status = .ok then
                   (none, st₂, { e₂ with status := .eofErr, message := some "Unexpected end of input inside list while expecting an element", line := st₂.line, col := st₂.col })
                 else (none, st₂, e₂)
               | (some elem, st₂, e₂) => parseRun fuel (.pList (acc ++ [elem])) st₂ e₂) := by
            simp [parseRun, hinp, hc]
          rcases hsub : parseRun fuel .pSexpr (skipWs st) e with ⟨r₂, st₂, e₂⟩
          have hs := ih .pSexpr (skipWs st) e hwf₁ hclean
          rw [hsub] at hs
          rw [hres, hsub]
          cases r₂ with
          | some elem =>
            have he₂ : e₂ = e := hs.2.1 elem rfl
            subst he₂
            have hs₂ := ih (.pList (acc ++ [elem])) st₂ e₂ hs.1 hclean
            refine ⟨hs₂.1, hs₂.2.1, ?_⟩
            intro hnone
            rcases hs₂.2.2 hnone with hg | ⟨hreq, _⟩
            · exact Or.inl hg
            · simp at hreq
          | none =>
            rcases hs.2.2 rfl with hg | ⟨_, he₂, _⟩
            · have : ¬ (e₂.status = .ok) := hg.1
              simp only [this, if_false, ite_false]
              exact ⟨hs.1, by intro v hv; simp at hv, fun _ => Or.inl hg⟩
            · have : e₂.status = .ok := by have h9 : e₂ = e := he₂; rw [h9]; exact hclean.1
              simp only [this, if_true, ite_true]
              refine ⟨hs.1, by intro v hv; simp at hv, fun _ => Or.inl ?_⟩
              exact ⟨by simp, ⟨_, rfl, by decide⟩, hs.1.1, hs.1.2⟩

/-- C3, counterexample: parsing the empty string returns null yet leaves the
process-wide error slot clean (status ok, no message set), so a null return from
l0_parse_string does not always come with a non-empty error message. -/
theorem c3_counterexample :
    (l0_parse_string "").1 = none ∧
    (l0_parse_string "").2.2.status = PStatus.ok ∧
    (l0_parse_string "").2.2.message = none := by
  decide

/-- C3, amended: every l0_parse_string call either returns a value and leaves the
error slot clean, or returns null; in the null case either the slot stays clean and
the input was empty after skipping whitespace and comments, or the slot holds a
non-empty error message with line at least 1 and column at least 1. -/
theorem c3_amended (input : String) :
    (∃ v, (l0_parse_string input).1 = some v ∧ cleanSlot (l0_parse_string input).2.2) ∨
    ((l0_parse_string input).1 = none ∧
      ((cleanSlot (l0_parse_string input).2.2 ∧
          (skipWs { input := input.toList, line := 1, col := 1 }).input = []) ∨
        goodErrSlot (l0_parse_string input).2.2)) := by
  have hwf₀ : pWF { input := input.toList, line := 1, col := 1 } := ⟨le_refl 1, le_refl 1⟩
  have hwf₁ : pWF (skipWs { input := input.toList, line := 1, col := 1 }) := skipWs_wf _ hwf₀
  have hclean : cleanSlot cleanErr := ⟨rfl, rfl⟩
  rcases hinp : (skipWs { input := input.toList, line := 1, col := 1 }).input with _ | ⟨c, rest⟩
  · have hres : l0_parse_string input =
        (none, skipWs { input := input.toList, line := 1, col := 1 }, cleanErr) := by
      simp only [l0_parse_string]
      rw [hinp]
    rw [hres]
    exact Or.inr ⟨rfl, Or.inl ⟨hclean, rfl⟩⟩
  · have hs := parseRun_spec (2 * input.length + 4) .pSexpr
      (skipWs { input := input.toList, line := 1, col := 1 }) cleanErr hwf₁ hclean
    rcases hsub : parseRun (2 * input.length + 4) .pSexpr
        (skipWs { input := input.toList, line := 1, col := 1 }) cleanErr with ⟨r, st₂, e₂⟩
    rw [hsub] at hs
    cases r with
    | some v =>
      have hres : l0_parse_string input = (some v, skipWs st₂, e₂) := by
        simp only [l0_parse_string]
        rw [hinp, hsub]
      rw [hres]
      left
      refine ⟨v, rfl, ?_⟩
      have h9 : e₂ = cleanErr := hs.2.1 v rfl
      rw [h9]
      exact hclean
    | none =>
      have hres : l0_parse_string input = (none, st₂, e₂) := by
        simp only [l0_parse_string]
        rw [hinp, hsub]
      rw [hres]
      right
      refine ⟨rfl, ?_⟩
      rcases hs.2.2 rfl with hg | ⟨_, _, hemp⟩
      · exact Or.inr hg
      · rw [skipWs_idem] at hemp
        rw [hinp] at hemp
        simp at hemp
